import Mathlib

/-!
# Verification of the Boonta pace / scoring / simulation engine

Shallow embedding of the algorithmic core of the repository:

* `backend/app/ml/pace.py` — venue / track-condition tables, `predict_pace`,
  `get_pace_advantage_score`, `calculate_post_position_effect`;
* `backend/app/services/prediction_service.py` — `_analyze_all_horses`,
  `_calculate_pace_score`, `_calculate_last_3f_score`,
  `_calculate_track_record_score`, `_generate_rankings_with_pace`,
  `_generate_bets`;
* `backend/app/services/simulation_service.py` — `_generate_start_formation`,
  `_generate_animation_frames`, `_interpolate_value`.

Python floats are modelled by `ℚ` (every constant in the source is a short
decimal, exactly representable), `None`-able values by `Option`, and Python
truthiness of strings / numbers by explicit helpers.  Human-readable rationale
strings (`reason`, `description`, `note`, `dark_horse_reason`) carry no
algorithmic content and are omitted from the records.
-/

/- `Rat.add`, `Rat.mul`, `Rat.inv`, `Rat.sub`, `Rat.div` and `Rat.ofScientific`
are sealed `irreducible` by Batteries, which blocks `decide` on concrete
rational arithmetic; restore normal reducibility for this development. -/
set_option allowUnsafeReducibility true

attribute [local semireducible] Rat.add Rat.mul Rat.inv Rat.sub Rat.div
attribute [local semireducible] Rat.ofScientific

namespace Boonta

/-- Python `s or default` for an optional string (`None` and `""` are falsy). -/
def pyOrStr (s : Option String) (d : String) : String :=
  match s with
  | none => d
  | some v => if v = "" then d else v

/-- Python `n or default` for an optional integer (`None` and `0` are falsy). -/
def pyOrInt (n : Option Int) (d : Int) : Int :=
  match n with
  | none => d
  | some v => if v = 0 then d else v

/-- Python `x or default` for an optional rational (`None` and `0.0` are falsy). -/
def pyOrRat (x : Option ℚ) (d : ℚ) : ℚ :=
  match x with
  | none => d
  | some v => if v = 0 then d else v

/-- Python truthiness of an optional integer (`if entry.popularity:`). -/
def pyTruthyInt (n : Option Int) : Bool :=
  match n with
  | none => false
  | some v => v ≠ 0

/-- Python truthiness of an optional rational (`if analysis.odds:`). -/
def pyTruthyRat (x : Option ℚ) : Bool :=
  match x with
  | none => false
  | some v => v ≠ 0

/-- Python `min(a, b)` on floats, written with the executable comparison on
`ℚ` (Mathlib's `min` on `ℚ` does not reduce in the kernel). -/
def pyMin (a b : ℚ) : ℚ := if a ≤ b then a else b

/-- Python `max(a, b)` on floats. -/
def pyMax (a b : ℚ) : ℚ := if b ≤ a then a else b

/-- Python `min(a, b)` on ints. -/
def pyMinI (a b : Int) : Int := if a ≤ b then a else b

/-- Python `max(a, b)` on ints. -/
def pyMaxI (a b : Int) : Int := if b ≤ a then a else b

theorem pyMin_eq_min (a b : ℚ) : pyMin a b = min a b := (min_def a b).symm

theorem pyMax_eq_max (a b : ℚ) : pyMax a b = max a b := by
  rcases le_total a b with h | h
  · rcases eq_or_lt_of_le h with rfl | h'
    · simp [pyMax, max_def]
    · simp [pyMax, max_eq_right h, not_le.mpr h']
  · simp [pyMax, max_eq_left h, h]

/-! ## `backend/app/ml/pace.py` -/

/-- `VENUE_CHARACTERISTICS[venue]["front_advantage"]`, with the Python
`dict.get(venue, {}).get("front_advantage", 0.0)` default for unknown venues. -/
def venueFrontAdvantage (venue : String) : ℚ :=
  if venue = "中山" then 0.15
  else if venue = "東京" then -0.10
  else if venue = "京都" then -0.05
  else if venue = "阪神" then 0
  else if venue = "中京" then 0.05
  else if venue = "小倉" then 0.20
  else if venue = "新潟" then -0.15
  else if venue = "福島" then 0.15
  else if venue = "札幌" then 0.15
  else if venue = "函館" then 0.20
  else 0

/-- `VENUE_CHARACTERISTICS[venue]["shape"]`, defaulting to `"medium"`. -/
def venueShape (venue : String) : String :=
  if venue = "中山" then "compact"
  else if venue = "東京" then "large"
  else if venue = "京都" then "large"
  else if venue = "阪神" then "medium"
  else if venue = "中京" then "medium"
  else if venue = "小倉" then "compact"
  else if venue = "新潟" then "large"
  else if venue = "福島" then "compact"
  else if venue = "札幌" then "compact"
  else if venue = "函館" then "compact"
  else "medium"

/-- `TRACK_CONDITION_EFFECTS[cond]["front_modifier"]`, defaulting to `0.0`. -/
def trackFrontModifier (cond : String) : ℚ :=
  if cond = "良" then 0
  else if cond = "稍重" then 0.05
  else if cond = "重" then 0.10
  else if cond = "不良" then 0.15
  else 0

/-- Result of `predict_pace` (the `reason` / `venue_description` strings are
omitted; they are never read by the rest of the engine). -/
structure PaceResult where
  paceType : String
  confidence : ℚ
  advantageousStyles : List String
  escapeCount : ℕ
  frontCount : ℕ
  stalkerCount : ℕ
  closerCount : ℕ
  venueAdjustment : ℚ
  trackConditionAdjustment : ℚ
deriving DecidableEq

/-- The base-pace determination of `predict_pace` (the ordered
escape-count / front-count rules): pace bucket, base confidence, and the
base advantaged-styles list. -/
def basePaceOf (escapeCount frontCount : ℕ) : String × ℚ × List String :=
  if 3 ≤ escapeCount then ("high", 0.85, ["STALKER", "CLOSER"])
  else if 2 ≤ escapeCount then ("high", 0.7, ["STALKER", "CLOSER"])
  else if escapeCount = 0 then ("slow", 0.8, ["FRONT", "STALKER"])
  else if escapeCount = 1 ∧ frontCount ≤ 2 then ("slow", 0.75, ["ESCAPE", "FRONT"])
  else if escapeCount = 1 ∧ 5 ≤ frontCount then ("middle", 0.6, ["FRONT", "STALKER"])
  else ("middle", 0.5, ["FRONT", "STALKER"])

/-- The dirt-course adjustment of `predict_pace`: ensure a front style is
present in the advantaged list. -/
def dirtAdjustAdvantageous (courseType : Option String) (adv : List String) :
    List String :=
  if courseType = some "ダート" ∧ "ESCAPE" ∉ adv ∧ "FRONT" ∉ adv then
    "FRONT" :: adv
  else adv

/-- The venue front-advantage adjustment of `predict_pace` restricted to the
advantaged list (the matching `+0.05` confidence bumps are applied separately
in `predictPace`; the branch conditions are identical). -/
def venueAdjustAdvantageous (paceType : String) (totalFrontAdvantage : ℚ)
    (adv : List String) : List String :=
  if 0.15 ≤ totalFrontAdvantage then
    (if paceType = "slow" ∧ "ESCAPE" ∉ adv then "ESCAPE" :: adv else adv)
  else if totalFrontAdvantage ≤ -0.10 then
    (if paceType = "high" ∧ "CLOSER" ∉ adv then adv ++ ["CLOSER"] else adv)
  else adv

/-- `predict_pace` from `backend/app/ml/pace.py`. -/
def predictPace (runningStyles : List (Option String)) (distance : Int)
    (courseType : Option String) (venue : Option String)
    (trackCondition : Option String) (escapePopularities : Option (List Int)) :
    PaceResult :=
  let escapeCount := (runningStyles.filter (· = some "ESCAPE")).length
  let frontCount := (runningStyles.filter (· = some "FRONT")).length
  let stalkerCount := (runningStyles.filter (· = some "STALKER")).length
  let closerCount := (runningStyles.filter (· = some "CLOSER")).length
  let venueAdjustment := venueFrontAdvantage (pyOrStr venue "")
  let trackAdjustment := trackFrontModifier (pyOrStr trackCondition "良")
  let totalFrontAdvantage := venueAdjustment + trackAdjustment
  -- escape-horse quality factor (`pace_control_factor`)
  let paceControlFactor : ℚ :=
    match escapePopularities with
    | none => 1
    | some pops =>
      if pops = [] ∨ escapeCount = 0 then 1
      else if pops.any (· ≤ 3) then 0.85
      else if 8 ≤ ((pops.map (fun (p : Int) => (p : ℚ))).sum / (pops.length : ℚ)) then 1.15
      else 1
  -- base pace from escape / front counts
  let base := basePaceOf escapeCount frontCount
  let paceType := base.1
  let conf0 := base.2.1
  let adv0 := base.2.2
  -- escape-horse quality adjustment
  let conf1 :=
    if paceControlFactor ≠ 1 ∧
        ((paceType = "high" ∧ paceControlFactor < 1) ∨
         (paceType = "slow" ∧ 1 < paceControlFactor)) then
      conf0 - 0.1
    else conf0
  -- distance adjustments
  let conf2 :=
    if 2400 ≤ distance then (if paceType = "high" then conf1 - 0.1 else conf1)
    else if distance ≤ 1400 then (if paceType = "slow" then conf1 - 0.1 else conf1)
    else conf1
  -- course type adjustment (dirt)
  let adv1 := dirtAdjustAdvantageous courseType adv0
  -- venue front-advantage adjustments
  let conf3 :=
    if 0.15 ≤ totalFrontAdvantage then conf2 + 0.05
    else if totalFrontAdvantage ≤ -0.10 then conf2 + 0.05
    else conf2
  let adv2 := venueAdjustAdvantageous paceType totalFrontAdvantage adv1
  { paceType := paceType
    confidence := pyMax 0.3 (pyMin 1 conf3)
    advantageousStyles := adv2
    escapeCount := escapeCount
    frontCount := frontCount
    stalkerCount := stalkerCount
    closerCount := closerCount
    venueAdjustment := venueAdjustment
    trackConditionAdjustment := trackAdjustment }

/-- `get_pace_advantage_score` from `backend/app/ml/pace.py`. -/
def getPaceAdvantageScore (runningStyle : Option String) (pr : PaceResult) : ℚ :=
  match runningStyle with
  | none => 1
  | some s =>
    if s = "" then 1
    else
      match pr.advantageousStyles.findIdx? (· = s) with
      | some i => 1.2 - (i : ℚ) * 0.05
      | none =>
        if pr.paceType = "high" then
          (if s = "ESCAPE" ∨ s = "FRONT" then 0.85 else 1)
        else if pr.paceType = "slow" then
          (if s = "STALKER" ∨ s = "CLOSER" then 0.85 else 1)
        else 1

/-- `calculate_post_position_effect` from `backend/app/ml/pace.py`
(the unused `total_horses` parameter is dropped). -/
def calculatePostPositionEffect (postPosition : Option Int)
    (runningStyle : Option String) (venue : Option String) : ℚ :=
  match runningStyle, postPosition with
  | none, _ => 1
  | _, none => 1
  | some s, some pp =>
    if s = "" then 1
    else
      let shape := venueShape (pyOrStr venue "")
      let isOuter := 6 ≤ pp
      let isInner := pp ≤ 3
      if s = "ESCAPE" then
        if isOuter then 0.90 * (if shape = "compact" then 0.95 else 1)
        else if isInner then 1.05
        else 1
      else if s = "FRONT" then
        if isOuter ∧ shape = "compact" then 0.95 else 1
      else if s = "STALKER" ∨ s = "CLOSER" then
        if shape = "compact" then
          if isInner then 1.05 else if isOuter then 0.95 else 1
        else 1
      else 1

/-! ## `backend/app/services/prediction_service.py` -/

/-- Python truthiness of an optional string (`if race.venue:`). -/
def pyTruthyStr (s : Option String) : Bool :=
  match s with
  | none => false
  | some v => v ≠ ""

/-- Projection of the `RaceEntry` ORM row onto the fields the engine reads.
`horseName` models the `entry.horse` relationship (`none` ⇒ the analysis
skips the entry). -/
structure Entry where
  horseId : ℕ
  horseName : Option String
  horseNumber : Option Int
  postPosition : Option Int
  runningStyle : Option String
  odds : Option ℚ
  popularity : Option Int
deriving DecidableEq

/-- Projection of the `Race` ORM row onto the fields the engine reads. -/
structure Race where
  venue : Option String
  trackCondition : Option String
  courseType : Option String
  distance : Int
  grade : Option String
deriving DecidableEq

/-- The `HorseAnalysis` dataclass. -/
structure HorseAnalysis where
  horseId : ℕ
  horseName : String
  horseNumber : Int
  runningStyle : String
  avgFirstCorner : ℚ
  avgLast3f : ℚ
  bestLast3f : ℚ
  winRate : ℚ
  placeRate : ℚ
  gradeRaceWins : ℕ
  odds : Option ℚ
  popularity : Option Int
deriving DecidableEq

/-- The `style_to_corner` table of `_analyze_all_horses` (`.get(style, 8.0)`). -/
def styleToCorner (s : String) : ℚ :=
  if s = "ESCAPE" then 1.5
  else if s = "FRONT" then 4
  else if s = "STALKER" then 7
  else if s = "CLOSER" then 12
  else if s = "VERSATILE" then 8
  else 8

/-- The per-entry body of `_analyze_all_horses` (the loop builds a dict keyed
by `horse_id`; we model the lookup `analyses.get(entry.horse_id)` by applying
this function to the entry itself, which agrees with the dict whenever horse
ids are unique within the race). -/
def analyzeHorse (raceGrade : Option String) (e : Entry) : Option HorseAnalysis :=
  match e.horseName with
  | none => none
  | some name =>
    let runningStyle := pyOrStr e.runningStyle "VERSATILE"
    let popularity := pyOrInt e.popularity 10
    let last3f : ℚ × ℚ :=
      if popularity ≤ 3 then (33.5, 33)
      else if popularity ≤ 6 then (34, 33.5)
      else (34.5, 34)
    let odds := pyOrRat e.odds 50
    some
      { horseId := e.horseId
        horseName := name
        horseNumber := pyOrInt e.horseNumber 0
        runningStyle := runningStyle
        avgFirstCorner := styleToCorner runningStyle
        avgLast3f := last3f.1
        bestLast3f := last3f.2
        winRate := if 0 < odds then pyMin (1 / odds) 0.5 else 0.05
        placeRate := if 0 < odds then pyMin (3 / odds) 0.8 else 0.15
        gradeRaceWins :=
          if raceGrade = some "G1" then (if popularity ≤ 10 then 1 else 0)
          else if raceGrade = some "G2" ∨ raceGrade = some "G3" then
            (if popularity ≤ 5 then 1 else 0)
          else 0
        odds := e.odds
        popularity := e.popularity }

/-- The `PacePrediction` schema (rationale string omitted). -/
structure PacePrediction where
  type : String
  confidence : ℚ
  advantageousStyles : List String
  escapeCount : ℕ
  frontCount : ℕ
deriving DecidableEq

/-- `_predict_pace`: collect the per-entry styles (analysis style when the
entry has a horse, else `entry.running_style or "VERSATILE"` — the same
expression in both cases) and the popularities of escape horses, then call
`predict_pace`. -/
def predictPaceService (entries : List Entry) (race : Race) : PacePrediction :=
  let runningStyles := entries.map (fun e => some (pyOrStr e.runningStyle "VERSATILE"))
  let escapePopularities :=
    (entries.filter (fun e =>
        pyOrStr e.runningStyle "VERSATILE" = "ESCAPE" ∧ pyTruthyInt e.popularity)).map
      (fun e => e.popularity.getD 0)
  let pr := predictPace runningStyles race.distance race.courseType race.venue
    race.trackCondition
    (if escapePopularities = [] then none else some escapePopularities)
  { type := pr.paceType
    confidence := pr.confidence
    advantageousStyles := pr.advantageousStyles
    escapeCount := pr.escapeCount
    frontCount := pr.frontCount }

/-- `_calculate_pace_score`. -/
def calculatePaceScore (analysis : HorseAnalysis) (pace : PacePrediction)
    (race : Option Race) (entry : Option Entry) : ℚ :=
  let style := analysis.runningStyle
  -- 1. base fit with the advantaged-styles list
  let base0 : ℚ :=
    if style ∈ pace.advantageousStyles then
      (if pace.advantageousStyles.head? = some style then 0.35 else 0.3)
    else 0.1
  -- 2. venue characteristic adjustment
  let base1 :=
    match race with
    | some r =>
      if pyTruthyStr r.venue then
        let fa := venueFrontAdvantage (r.venue.getD "")
        if style = "ESCAPE" ∨ style = "FRONT" then base0 + fa * 0.3
        else if style = "STALKER" ∨ style = "CLOSER" then base0 - fa * 0.2
        else base0
      else base0
    | none => base0
  -- 3. track condition adjustment
  let base2 :=
    match race with
    | some r =>
      if pyTruthyStr r.trackCondition then
        let fm := trackFrontModifier (r.trackCondition.getD "")
        if style = "ESCAPE" ∨ style = "FRONT" then base1 + fm * 0.2
        else if style = "STALKER" ∨ style = "CLOSER" then base1 - fm * 0.15
        else base1
      else base1
    | none => base1
  -- 4. post-position adjustment
  let base3 :=
    match entry, race with
    | some e, some r =>
      if pyTruthyInt e.postPosition then
        base2 * calculatePostPositionEffect e.postPosition (some style) r.venue
      else base2
    | _, _ => base2
  -- 5. closing ability matters in a high pace
  let base4 :=
    if pace.type = "high" ∧ analysis.bestLast3f ≤ 33.5 then base3 + 0.1 else base3
  -- 6. early position matters in a slow pace
  let base5 :=
    if pace.type = "slow" ∧ analysis.avgFirstCorner ≤ 5 then base4 + 0.1 else base4
  pyMax 0.05 (pyMin base5 0.5)

/-- `_calculate_last_3f_score`. -/
def calculateLast3fScore (analysis : HorseAnalysis) (pace : PacePrediction) : ℚ :=
  let best := analysis.bestLast3f
  let avg := analysis.avgLast3f
  let score0 : ℚ :=
    if best ≤ 32.5 then 0.35
    else if best ≤ 33 then 0.3
    else if best ≤ 33.5 then 0.25
    else if best ≤ 34 then 0.2
    else if best ≤ 34.5 then 0.15
    else 0.1
  let stability := 1 - pyMin ((avg - best) / 2) 0.3
  let score1 := score0 * stability
  let score2 := if pace.type = "high" then score1 * 1.2 else score1
  pyMin score2 0.4

/-- `_calculate_track_record_score`. -/
def calculateTrackRecordScore (analysis : HorseAnalysis) : ℚ :=
  let s := analysis.winRate * 0.4 + analysis.placeRate * 0.3 +
    (if 3 ≤ analysis.gradeRaceWins then 0.3
     else if 1 ≤ analysis.gradeRaceWins then 0.2
     else 0.05)
  pyMin s 0.4

/-- The `HorsePrediction` schema (`dark_horse_reason` string omitted). -/
structure HorsePrediction where
  rank : ℕ
  horseId : ℕ
  horseName : String
  horseNumber : Int
  score : ℚ
  winProbability : ℚ
  placeProbability : ℚ
  popularity : Option Int
  odds : Option ℚ
  isDarkHorse : Bool
deriving DecidableEq

/-- `ml_predictions.get(horse_id, 0.0)` for the ML place-probability dict,
modelled as an association list. -/
def mlLookup (ml : List (ℕ × ℚ)) (id : ℕ) : ℚ :=
  ((ml.find? (fun p => p.1 = id)).map Prod.snd).getD 0

/-- The odds-derived base score of `_generate_rankings_with_pace`
(`1.0 / odds` when the odds are present and positive, else `0.05`). -/
def baseScoreOf (analysis : HorseAnalysis) : ℚ :=
  match analysis.odds with
  | some o => if 0 < o then 1 / o else 0.05
  | none => 0.05

/-- The per-horse total score of `_generate_rankings_with_pace`:
`ml×0.4 + pace×0.25 + last3f×0.2 + track×0.15` when the ML model is in use,
`base(odds)×0.2 + pace×0.35 + last3f×0.25 + track×0.2` otherwise. -/
def totalScoreCore (useMl : Bool) (mlScore : ℚ) (analysis : HorseAnalysis)
    (pace : PacePrediction) (race : Race) (e : Entry) : ℚ :=
  let baseScore : ℚ := baseScoreOf analysis
  let paceScore := calculatePaceScore analysis pace (some race) (some e)
  let last3fScore := calculateLast3fScore analysis pace
  let trackRecordScore := calculateTrackRecordScore analysis
  if useMl then
    mlScore * 0.4 + paceScore * 0.25 + last3fScore * 0.2 + trackRecordScore * 0.15
  else
    baseScore * 0.2 + paceScore * 0.35 + last3fScore * 0.25 + trackRecordScore * 0.2

/-- One iteration of the ranking loop: build the (rank-1 placeholder)
`HorsePrediction` row for an entry, or skip it when it has no analysis. -/
def mkRow (useMl : Bool) (ml : List (ℕ × ℚ)) (raceGrade : Option String)
    (pace : PacePrediction) (race : Race) (e : Entry) : Option HorsePrediction :=
  (analyzeHorse raceGrade e).map fun analysis =>
    let total := totalScoreCore useMl (mlLookup ml e.horseId) analysis pace race e
    let isDark : Bool :=
      (match analysis.popularity with
       | some p => decide (p ≠ 0 ∧ 6 ≤ p)
       | none => false) && decide ((0.15 : ℚ) ≤ total)
    { rank := 1
      horseId := e.horseId
      horseName := analysis.horseName
      horseNumber := analysis.horseNumber
      score := pyMin total 1
      winProbability := pyMin (total * 0.4) 0.5
      placeProbability := pyMin (total * 1.2) 0.85
      popularity := analysis.popularity
      odds := analysis.odds
      isDarkHorse := isDark }

/-- The (total, transitive) descending-score relation the ranking sorts by. -/
def scoreGE (a b : HorsePrediction) : Prop := b.score ≤ a.score

instance : DecidableRel scoreGE :=
  fun a b => inferInstanceAs (Decidable (b.score ≤ a.score))

instance : IsTotal HorsePrediction scoreGE := ⟨fun a b => le_total b.score a.score⟩

instance : IsTrans HorsePrediction scoreGE := ⟨fun _ _ _ h₁ h₂ => le_trans h₂ h₁⟩

/-- Python's `list.sort(key=score, reverse=True)` is the unique stable
descending sort; `List.insertionSort` with `scoreGE` computes exactly
that list (earlier elements are inserted later and land in front of
equal-score elements). -/
def sortByScoreDesc (l : List HorsePrediction) : List HorsePrediction :=
  List.insertionSort scoreGE l

/-- The final `for i, r in enumerate(rankings): r.rank = i + 1` pass. -/
def assignRanks (l : List HorsePrediction) : List HorsePrediction :=
  l.enum.map (fun p => { p.2 with rank := p.1 + 1 })

/-- `_generate_rankings_with_pace` (the returned `use_ml` flag is
`ml ≠ []`). -/
def generateRankings (entries : List Entry) (raceGrade : Option String)
    (pace : PacePrediction) (race : Race) (ml : List (ℕ × ℚ)) :
    List HorsePrediction :=
  let useMl : Bool := decide (0 < ml.length)
  let rows := entries.filterMap (mkRow useMl ml raceGrade pace race)
  assignRanks (sortByScoreDesc rows)

/-- The ranking part of `create_prediction`: analyses → pace prediction →
rankings (`ml` is the dict `_get_ml_predictions` would return; it is empty
whenever the ML model is unavailable). -/
def createPredictionRankings (entries : List Entry) (race : Race)
    (ml : List (ℕ × ℚ)) : List HorsePrediction :=
  generateRankings entries race.grade (predictPaceService entries race) race ml

/-! ### `_generate_bets` -/

/-- Helper for `pyUnique`: keep elements not yet seen. -/
def pyUniqueAux (seen : List Int) : List Int → List Int
  | [] => []
  | x :: xs => if x ∈ seen then pyUniqueAux seen xs else x :: pyUniqueAux (x :: seen) xs

/-- Python `list(dict.fromkeys(l))`: deduplicate keeping the first
occurrence of each element, in order. -/
def pyUnique (l : List Int) : List Int := pyUniqueAux [] l

/-- The `trifecta` formation dict built by `_generate_bets`. -/
structure TrifectaTicket where
  first : List Int
  second : List Int
  third : List Int
  combinations : ℕ
  amountPerTicket : ℕ
deriving DecidableEq

/-- The `trio` box dict built by `_generate_bets`. -/
structure TrioTicket where
  horses : List Int
  combinations : ℕ
  amountPerTicket : ℕ
deriving DecidableEq

/-- The `exacta` dict built by `_generate_bets`. -/
structure ExactaTicket where
  first : Int
  second : List Int
  combinations : ℕ
  amountPerTicket : ℕ
deriving DecidableEq

/-- The `wide` dict built by `_generate_bets`. -/
structure WideTicket where
  pairs : List (List Int)
  amountPerTicket : ℕ
deriving DecidableEq

/-- The value `_generate_bets` constructs.  (The Pydantic `BetRecommendation`
schema declares only `trio` / `trifecta_multi` / `total_investment` / `note`,
so the `trifecta` / `exacta` / `wide` keyword arguments — and the
`high_risk_bets` list, whose `HighRiskBet` class does not exist in
`app.schemas` at all — are not representable in the declared response type;
we model the dicts the function actually computes.) -/
structure BetRecommendation where
  trifecta : Option TrifectaTicket
  trio : Option TrioTicket
  exacta : Option ExactaTicket
  wide : Option WideTicket
  totalInvestment : ℕ
deriving DecidableEq

/-- `_generate_bets` from `backend/app/services/prediction_service.py`
(the rationale `note` string and the `high_risk_bets` list are omitted;
neither feeds into the tickets or the total). -/
def generateBets (rankings : List HorsePrediction) : BetRecommendation :=
  match rankings with
  | r0 :: r1 :: _ :: _ =>
    let topHorses := [r0.horseNumber, r1.horseNumber]
    let counterHorses := ((rankings.drop 2).take 4).map (·.horseNumber)
    let darkHorses := ((rankings.filter (·.isDarkHorse)).map (·.horseNumber)).take 2
    let allHorses := pyUnique (topHorses ++ counterHorses.take 2 ++ darkHorses)
    let secondList := pyUnique (topHorses ++ counterHorses.take 2)
    let trifecta : TrifectaTicket :=
      { first := topHorses
        second := secondList
        third := allHorses
        combinations := topHorses.length * secondList.length * allHorses.length
        amountPerTicket := 100 }
    let trio : TrioTicket :=
      { horses := allHorses.take 5, combinations := 10, amountPerTicket := 300 }
    let exacta : Option ExactaTicket :=
      if 0.25 < r0.score then
        some { first := r0.horseNumber
               second := ((rankings.drop 1).take 3).map (·.horseNumber)
               combinations := 3
               amountPerTicket := 500 }
      else none
    let wide : Option WideTicket :=
      match darkHorses with
      | [] => none
      | d :: _ => some { pairs := [[d, r0.horseNumber]], amountPerTicket := 200 }
    let total := trifecta.combinations * trifecta.amountPerTicket +
      trio.combinations * trio.amountPerTicket +
      (match exacta with | some ex => ex.combinations * ex.amountPerTicket | none => 0) +
      (match wide with | some w => w.pairs.length * w.amountPerTicket | none => 0)
    { trifecta := some trifecta
      trio := some trio
      exacta := exacta
      wide := wide
      totalInvestment := total }
  | _ => { trifecta := none, trio := none, exacta := none, wide := none, totalInvestment := 0 }

/-! ## `backend/app/services/simulation_service.py` -/

/-- A horse in the start-formation diagram (`FormationHorse`). -/
structure FormationHorse where
  horseNumber : Int
  horseName : String
  runningStyle : String
deriving DecidableEq

/-- A row of the start formation (`FormationRow`). -/
structure FormationRow where
  rowIndex : ℕ
  rowLabel : String
  horses : List FormationHorse
deriving DecidableEq

/-- The start formation (`StartFormation`). -/
structure StartFormation where
  rows : List FormationRow
  totalHorses : ℕ
deriving DecidableEq

/-- Append the formation row(s) for one style group: skipped when empty,
split into two rows at `len // 2` when `split4` and more than 4 horses. -/
def addGroupRows (split4 : Bool) (label : String) (horses : List FormationHorse)
    (acc : List FormationRow × ℕ) : List FormationRow × ℕ :=
  if horses = [] then acc
  else if ¬split4 ∨ horses.length ≤ 4 then
    (acc.1 ++ [⟨acc.2, label, horses⟩], acc.2 + 1)
  else
    let mid := horses.length / 2
    (acc.1 ++ [⟨acc.2, label, horses.take mid⟩, ⟨acc.2 + 1, label, horses.drop mid⟩],
      acc.2 + 2)

/-- `_generate_start_formation`.  Note that a horse whose declared style is
outside the five keys of `style_groups` is appended to NO group (the guard
`if style in style_groups`), hence appears in no row. -/
def generateStartFormation (entries : List Entry) : StartFormation :=
  let withHorse := entries.filterMap (fun e => e.horseName.map (fun n => (e, n)))
  let group := fun (g : String) =>
    (withHorse.filter (fun p => pyOrStr p.1.runningStyle "VERSATILE" = g)).map
      (fun p => FormationHorse.mk (pyOrInt p.1.horseNumber 0) p.2
        (pyOrStr p.1.runningStyle "VERSATILE"))
  let acc0 := addGroupRows false "先頭" (group "ESCAPE") ([], 0)
  let acc1 := addGroupRows true "先行" (group "FRONT") acc0
  let acc2 := addGroupRows true "中団" (group "STALKER" ++ group "VERSATILE") acc1
  let acc3 := addGroupRows false "後方" (group "CLOSER") acc2
  { rows := acc3.1, totalHorses := entries.length }

/-- A horse's snapshot at one corner (`HorsePosition`). -/
structure HorsePosition where
  horseNumber : Int
  horseName : String
  runningStyle : Option String
  position : Int
  distanceFromLeader : ℚ
deriving DecidableEq

/-- One checkpoint (`CornerPositions`). -/
structure CornerPositions where
  cornerName : String
  horses : List HorsePosition
deriving DecidableEq

/-- A horse in one animation frame (`AnimationHorse`). -/
structure AnimationHorse where
  horseNumber : Int
  horseName : String
  runningStyle : Option String
  progress : ℚ
  lane : Int
deriving DecidableEq

/-- One animation frame (`AnimationFrame`). -/
structure AnimationFrame where
  time : ℚ
  horses : List AnimationHorse
deriving DecidableEq

/-- Python `int(x)` on a float: truncation toward zero. -/
def pyInt (q : ℚ) : Int :=
  if q < 0 then -Int.floor (-q) else Int.floor q

/-- The `corner_progress` dict of `_generate_animation_frames`
(`.get(name, 0.0)`). -/
def cornerProgressOf (name : String) : ℚ :=
  if name = "1C" then 0.2
  else if name = "2C" then 0.4
  else if name = "3C" then 0.6
  else if name = "4C" then 0.8
  else if name = "goal" then 1
  else 0

/-- `lane = min(max(1, (position - 1) // 2 + 1), 8)` (Python floor division). -/
def laneOf (position : Int) : Int :=
  pyMinI (pyMaxI 1 (Int.fdiv (position - 1) 2 + 1)) 8

/-- One `position_data` dict entry: number, name, style and the polyline of
`(checkpoint_progress, position, lane)` triples. -/
structure AnimHorseData where
  horseNumber : Int
  name : String
  style : Option String
  positions : List (ℚ × ℚ × ℚ)
deriving DecidableEq

/-- Append a corner point to the (insertion-ordered) `position_data` dict,
creating the horse's record on first sight. -/
def addPoint (progress : ℚ) (h : HorsePosition) :
    List AnimHorseData → List AnimHorseData
  | [] => [⟨h.horseNumber, h.horseName, h.runningStyle,
      [(progress, (h.position : ℚ), ((laneOf h.position : Int) : ℚ))]⟩]
  | d :: rest =>
    if d.horseNumber = h.horseNumber then
      ⟨d.horseNumber, d.name, d.style,
        d.positions ++ [(progress, (h.position : ℚ), ((laneOf h.position : Int) : ℚ))]⟩ :: rest
    else d :: addPoint progress h rest

/-- Build `position_data` by scanning the checkpoints in order. -/
def buildPositionData (corners : List CornerPositions) : List AnimHorseData :=
  corners.foldl
    (fun pd corner =>
      corner.horses.foldl (fun pd h => addPoint (cornerProgressOf corner.cornerName) h pd) pd)
    []

/-- Insert the synthetic `progress = 0` starting point in front of each
horse's polyline (`STYLE_TO_CORNER_POSITION` is the same table as
`style_to_corner`, reused here as `styleToCorner`). -/
def withStartPoints (pd : List AnimHorseData) : List AnimHorseData :=
  pd.map fun d =>
    let startPosition := styleToCorner (pyOrStr d.style "VERSATILE")
    let startLane := pyMinI (pyMaxI 1 (Int.fdiv (pyInt startPosition) 2 + 1)) 8
    ⟨d.horseNumber, d.name, d.style,
      (0, startPosition, ((startLane : Int) : ℚ)) :: d.positions⟩

/-- The bracketing scan of `_interpolate_value`: walk the polyline keeping
`prev = last point with progress ≤ t`; stop (returning `(prev, next)`) at the
first point with progress ≥ t, else report the final `prev`. -/
def bracketAux (progress : ℚ) (prev : ℚ × ℚ × ℚ) :
    List (ℚ × ℚ × ℚ) → (ℚ × ℚ × ℚ) ⊕ ((ℚ × ℚ × ℚ) × (ℚ × ℚ × ℚ))
  | [] => Sum.inl prev
  | p :: rest =>
    let prev2 := if p.1 ≤ progress then p else prev
    if progress ≤ p.1 then Sum.inr (prev2, p)
    else bracketAux progress prev2 rest

/-- `_interpolate_value` (`sel` selects index 1 = position or 2 = lane). -/
def interpolateValue (positions : List (ℚ × ℚ × ℚ)) (progress : ℚ)
    (sel : ℚ × ℚ × ℚ → ℚ) : ℚ :=
  match positions with
  | [] => 0
  | p0 :: _ =>
    let pn :=
      match bracketAux progress p0 positions with
      | Sum.inl prevFinal => (prevFinal, positions.getLastD p0)
      | Sum.inr found => found
    if pn.1.1 = pn.2.1 then sel pn.1
    else sel pn.1 + (progress - pn.1.1) / (pn.2.1 - pn.1.1) * (sel pn.2 - sel pn.1)

/-- `_generate_animation_frames`.  The source sets `time=progress`, where
`progress` is the per-horse loop variable that leaks out of the inner loop:
each frame's `time` is the drift-adjusted displayed progress of the LAST
horse of `position_data`, not the even sample `i / 60` (and a `NameError`
when there are no horses at all — modelled as 0 here). -/
def generateAnimationFrames (corners : List CornerPositions) : List AnimationFrame :=
  let frameCount : ℕ := 60
  let pd := withStartPoints (buildPositionData corners)
  let totalHorses := pd.length
  (List.range (frameCount + 1)).map fun (i : ℕ) =>
    let baseProgress : ℚ := (i : ℚ) / (frameCount : ℚ)
    let horses := pd.map fun d =>
      let pos := interpolateValue d.positions baseProgress (fun p => p.2.1)
      let lane := pyInt (interpolateValue d.positions baseProgress (fun p => p.2.2))
      let maxOffset : ℚ := 0.12 * (1 - (pos - 1) / (((if 1 ≤ totalHorses - 1 then totalHorses - 1 else 1) : ℕ) : ℚ)) - 0.06
      let progress := pyMax 0 (pyMin 1 (baseProgress + maxOffset * baseProgress))
      AnimationHorse.mk d.horseNumber d.name d.style progress (pyMinI (pyMaxI 1 lane) 8)
    AnimationFrame.mk (((horses.getLast?).map (·.progress)).getD 0) horses

/-! ## Claim theorems -/

/-- The running-style list of the spec's concrete 10-horse scenario. -/
def styles10TripleEscape : List (Option String) :=
  [some "ESCAPE", some "ESCAPE", some "ESCAPE", some "FRONT", some "FRONT",
   some "STALKER", some "STALKER", some "STALKER", some "CLOSER", some "CLOSER"]

/-- C3: with at least 3 ESCAPE runners `predict_pace` classifies the race as
"high" (for every input), with base confidence 0.85 and advantaged styles
`[STALKER, CLOSER]` (evaluated at neutral venue/track/distance); and in the
concrete 10-horse scenario at 中山 on 良 going the result is bucket "high",
confidence 0.85 + 0.05 = 0.90, advantaged styles exactly `[STALKER, CLOSER]`. -/
theorem c3_three_escapes_high_pace :
    (∀ (styles : List (Option String)) (distance : Int) courseType venue
        trackCondition escapePopularities,
        3 ≤ (styles.filter (· = some "ESCAPE")).length →
          (predictPace styles distance courseType venue trackCondition
            escapePopularities).paceType = "high") ∧
    (∀ styles : List (Option String),
        3 ≤ (styles.filter (· = some "ESCAPE")).length →
          (predictPace styles 2000 (some "芝") none none none).confidence = 0.85 ∧
          (predictPace styles 2000 (some "芝") none none none).advantageousStyles =
            ["STALKER", "CLOSER"]) ∧
    ((predictPace styles10TripleEscape 2000 (some "芝") (some "中山") (some "良")
        none).paceType = "high" ∧
     (predictPace styles10TripleEscape 2000 (some "芝") (some "中山") (some "良")
        none).confidence = 0.9 ∧
     (predictPace styles10TripleEscape 2000 (some "芝") (some "中山") (some "良")
        none).advantageousStyles = ["STALKER", "CLOSER"]) := by
  refine ⟨?_, ?_, ?_⟩
  · intro styles distance courseType venue trackCondition escapePopularities h
    simp [predictPace, basePaceOf, h]
  · intro styles h
    simp [predictPace, basePaceOf, dirtAdjustAdvantageous,
      venueAdjustAdvantageous, h, pyOrStr, venueFrontAdvantage,
      trackFrontModifier, pyMax, pyMin]
    norm_num
  · refine ⟨?_, ?_, ?_⟩ <;> decide

/-- Witness for C3's hypotheses at the concrete 10-horse style list. -/
theorem c3_three_escapes_high_pace_witness :
    (predictPace styles10TripleEscape 2000 (some "芝") none none none).paceType =
      "high" ∧
    (predictPace styles10TripleEscape 2000 (some "芝") none none none).confidence =
      0.85 :=
  ⟨c3_three_escapes_high_pace.1 styles10TripleEscape 2000 (some "芝") none none
      none (by decide),
   (c3_three_escapes_high_pace.2.1 styles10TripleEscape (by decide)).1⟩

/-- C6: the post-position effect is 1.0 by default and follows the claimed
case table: ESCAPE ×0.90 outer (×0.95 more on a compact venue) and ×1.05
inner; FRONT ×0.95 only at an outer gate on a compact venue; STALKER/CLOSER
×1.05 inner / ×0.95 outer on a compact venue and neutral elsewhere; a missing
(or empty) running style or a missing post position gives exactly 1.0. -/
theorem c6_post_position_effect_table :
    (∀ (rs : Option String) (v : Option String),
        calculatePostPositionEffect none rs v = 1) ∧
    (∀ (pp : Int) (v : Option String),
        calculatePostPositionEffect (some pp) none v = 1 ∧
        calculatePostPositionEffect (some pp) (some "") v = 1) ∧
    (∀ (pp : Int) (v : Option String),
        calculatePostPositionEffect (some pp) (some "ESCAPE") v =
          if 6 ≤ pp then
            (if venueShape (pyOrStr v "") = "compact" then 0.855 else 0.90)
          else if pp ≤ 3 then 1.05
          else 1) ∧
    (∀ (pp : Int) (v : Option String),
        calculatePostPositionEffect (some pp) (some "FRONT") v =
          if 6 ≤ pp ∧ venueShape (pyOrStr v "") = "compact" then 0.95 else 1) ∧
    (∀ (pp : Int) (v : Option String) (s : String), (s = "STALKER" ∨ s = "CLOSER") →
        calculatePostPositionEffect (some pp) (some s) v =
          if venueShape (pyOrStr v "") = "compact" then
            (if pp ≤ 3 then 1.05 else if 6 ≤ pp then 0.95 else 1)
          else 1) ∧
    (∀ (pp : Int) (v : Option String),
        calculatePostPositionEffect (some pp) (some "VERSATILE") v = 1) := by
  refine ⟨fun rs v => ?_, fun pp v => ⟨?_, ?_⟩, fun pp v => ?_, fun pp v => ?_,
    fun pp v s hs => ?_, fun pp v => ?_⟩
  · cases rs <;> rfl
  · rfl
  · rfl
  · simp only [calculatePostPositionEffect]
    split_ifs <;> simp_all
    norm_num
  · simp only [calculatePostPositionEffect]
    split_ifs <;> simp_all
  · rcases hs with rfl | rfl <;>
      (simp only [calculatePostPositionEffect]; split_ifs <;> simp_all)
  · simp only [calculatePostPositionEffect]
    split_ifs <;> simp_all

/-- Witness for C6's hypothesised conjunct (STALKER/CLOSER case) at a
concrete gate and venue. -/
theorem c6_post_position_effect_table_witness :
    calculatePostPositionEffect (some 2) (some "STALKER") (some "中山") = 1.05 := by
  have h := c6_post_position_effect_table.2.2.2.2.1 2 (some "中山") "STALKER"
    (Or.inl rfl)
  rw [h]
  decide

/-- A 5-checkpoint corner-position set with a single (leading) ESCAPE horse,
used to evaluate `_generate_animation_frames`. -/
def cornersSingleEscape : List CornerPositions :=
  [{ cornerName := "1C",
     horses := [{ horseNumber := 1, horseName := "A", runningStyle := some "ESCAPE",
                  position := 1, distanceFromLeader := 0 }] },
   { cornerName := "2C",
     horses := [{ horseNumber := 1, horseName := "A", runningStyle := some "ESCAPE",
                  position := 1, distanceFromLeader := 0 }] },
   { cornerName := "3C",
     horses := [{ horseNumber := 1, horseName := "A", runningStyle := some "ESCAPE",
                  position := 1, distanceFromLeader := 0 }] },
   { cornerName := "4C",
     horses := [{ horseNumber := 1, horseName := "A", runningStyle := some "ESCAPE",
                  position := 1, distanceFromLeader := 0 }] },
   { cornerName := "goal",
     horses := [{ horseNumber := 1, horseName := "A", runningStyle := some "ESCAPE",
                  position := 1, distanceFromLeader := 0 }] }]

/-- C8 (code bug): `_generate_animation_frames` does emit exactly 61 frames
for every input, but the frame's `time` is NOT the even sample `i / 60`: the
source writes `time=progress`, reusing the per-horse loop variable that
leaks out of the inner loop, so each frame's time is the drift-adjusted
displayed progress of the last horse.  With a single leading horse, frame 30
(global progress 0.5, drift offset +0.06 × 0.5) gets time 0.53 ≠ 30/60. -/
theorem c8_animation_frame_times :
    (∀ corners : List CornerPositions,
        (generateAnimationFrames corners).length = 61) ∧
    ((generateAnimationFrames cornersSingleEscape).get? 30).map (·.time) =
      some 0.53 ∧
    (0.53 : ℚ) ≠ (30 : ℚ) / 60 := by
  refine ⟨?_, by decide, by norm_num⟩
  intro corners
  simp only [generateAnimationFrames, List.length_map, List.length_range]

/-- Witness for C8's universally quantified 61-frame part at the concrete
input. -/
theorem c8_animation_frame_times_witness :
    (generateAnimationFrames cornersSingleEscape).length = 61 :=
  c8_animation_frame_times.1 cornersSingleEscape

/-- A plain 3-horse ranking (no dark horses, top score ≤ 0.25) used to
evaluate `_generate_bets`. -/
def rankingsThreePlain : List HorsePrediction :=
  [{ rank := 1, horseId := 1, horseName := "A", horseNumber := 1,
     score := 0.2, winProbability := 0.08, placeProbability := 0.24,
     popularity := some 1, odds := some 5, isDarkHorse := false },
   { rank := 2, horseId := 2, horseName := "B", horseNumber := 2,
     score := 0.18, winProbability := 0.072, placeProbability := 0.216,
     popularity := some 2, odds := some 6, isDarkHorse := false },
   { rank := 3, horseId := 3, horseName := "C", horseNumber := 3,
     score := 0.1, winProbability := 0.04, placeProbability := 0.12,
     popularity := some 3, odds := some 10, isDarkHorse := false }]

/-- C2 (code bug): on a 3-horse ranking `_generate_bets` builds a
trifecta FORMATION of 2×3×3 = 18 combinations at 100 each plus a fixed
10-combination trio BOX at 300 each (total stake 4800) — not the claimed
two tickets (trio 2-pivot with |others| = 1 combination at 1000, trifecta
2-pivot multi with 6 combinations at 200, total 2200) that the repository's
own `BetRecommendation` schema declares (its only ticket fields are `trio`
and `trifecta_multi`; the `trifecta`/`exacta`/`wide` keyword arguments the
function passes are not fields of that schema, and the `HighRiskBet` class
it imports does not exist in `app.schemas`). -/
theorem c2_bet_generator_divergence :
    (generateBets rankingsThreePlain).totalInvestment = 4800 ∧
    (generateBets rankingsThreePlain).trifecta =
      some { first := [1, 2], second := [1, 2, 3], third := [1, 2, 3],
             combinations := 18, amountPerTicket := 100 } ∧
    (generateBets rankingsThreePlain).trio =
      some { horses := [1, 2, 3], combinations := 10, amountPerTicket := 300 } ∧
    (generateBets rankingsThreePlain).exacta = none ∧
    (generateBets rankingsThreePlain).wide = none ∧
    (4800 : ℕ) ≠ 1 * 1000 + 6 * 200 := by
  refine ⟨?_, ?_, ?_, ?_, ?_, by norm_num⟩ <;> decide

/-- Two entries with the same running style but different odds and
popularity (for C5). -/
def entryStalkerFavorite : Entry :=
  { horseId := 1, horseName := some "A", horseNumber := some 1,
    postPosition := some 1, runningStyle := some "STALKER",
    odds := some 2, popularity := some 1 }

/-- See `entryStalkerFavorite`. -/
def entryStalkerLongshot : Entry :=
  { horseId := 2, horseName := some "B", horseNumber := some 2,
    postPosition := some 2, runningStyle := some "STALKER",
    odds := some 50, popularity := some 10 }

/-- C5 counterexample: two entries with the same running style but different
odds/popularity get DIFFERENT analysis proxies (win rate 0.5 vs 0.02, best
last-3F 33.0 vs 34.0) — the analysis step is not odds/popularity-oblivious. -/
theorem c5_analysis_noninterference_counterexample :
    entryStalkerFavorite.runningStyle = entryStalkerLongshot.runningStyle ∧
    (analyzeHorse (some "G1") entryStalkerFavorite).map (·.winRate) = some 0.5 ∧
    (analyzeHorse (some "G1") entryStalkerLongshot).map (·.winRate) = some 0.02 ∧
    (analyzeHorse (some "G1") entryStalkerFavorite).map (·.bestLast3f) = some 33.0 ∧
    (analyzeHorse (some "G1") entryStalkerLongshot).map (·.bestLast3f) = some 34.0 ∧
    (0.5 : ℚ) ≠ 0.02 := by
  refine ⟨rfl, ?_, ?_, ?_, ?_, by norm_num⟩ <;> decide

/-- C5 amended: the numeric proxies of the analysis (closing-sectional
averages, win/place rates, grade-race wins) are a function of the entry's
popularity and odds (and the race grade) only — two entries agreeing on
those get identical proxies whatever their running styles. -/
theorem c5_analysis_proxies_function_of_popularity_odds
    (grade : Option String) (e₁ e₂ : Entry) (n₁ n₂ : String)
    (h₁ : e₁.horseName = some n₁) (h₂ : e₂.horseName = some n₂)
    (hp : e₁.popularity = e₂.popularity) (ho : e₁.odds = e₂.odds) :
    (analyzeHorse grade e₁).map
        (fun a => (a.avgLast3f, a.bestLast3f, a.winRate, a.placeRate, a.gradeRaceWins)) =
      (analyzeHorse grade e₂).map
        (fun a => (a.avgLast3f, a.bestLast3f, a.winRate, a.placeRate, a.gradeRaceWins)) := by
  simp [analyzeHorse, h₁, h₂, hp, ho]

/-- Witness for C5's amended theorem: equal popularity and odds, different
styles. -/
theorem c5_analysis_proxies_function_of_popularity_odds_witness :
    (analyzeHorse (some "G1")
        { horseId := 1, horseName := some "A", horseNumber := some 1,
          postPosition := none, runningStyle := some "ESCAPE",
          odds := some 4, popularity := some 5 }).map
        (fun a => (a.avgLast3f, a.bestLast3f, a.winRate, a.placeRate, a.gradeRaceWins)) =
      (analyzeHorse (some "G1")
        { horseId := 2, horseName := some "B", horseNumber := some 2,
          postPosition := none, runningStyle := some "CLOSER",
          odds := some 4, popularity := some 5 }).map
        (fun a => (a.avgLast3f, a.bestLast3f, a.winRate, a.placeRate, a.gradeRaceWins)) :=
  c5_analysis_proxies_function_of_popularity_odds (some "G1") _ _ "A" "B"
    rfl rfl rfl rfl

/-! ### Shared structure of the ranking pipeline -/

/-- Every row of `_generate_rankings_with_pace` is a `mkRow` image of an
input entry: rank assignment only rewrites the `rank` field. -/
theorem exists_mkRow_of_mem_generateRankings {entries : List Entry}
    {grade : Option String} {pace : PacePrediction} {race : Race}
    {ml : List (ℕ × ℚ)} {r : HorsePrediction}
    (hr : r ∈ generateRankings entries grade pace race ml) :
    ∃ e ∈ entries,
      mkRow (decide (0 < ml.length)) ml grade pace race e =
        some { r with rank := 1 } := by
  unfold generateRankings assignRanks at hr
  obtain ⟨p, hmem, hfp⟩ := List.mem_map.mp hr
  obtain ⟨i, r₀⟩ := p
  have h2 := List.mem_enumFrom hmem
  simp only [Nat.sub_zero] at h2
  have hr₀' : r₀ ∈ entries.filterMap
      (mkRow (decide (0 < ml.length)) ml grade pace race) :=
    ((List.perm_insertionSort _ _).mem_iff).mp (h2.2.2 ▸ List.getElem_mem _)
  obtain ⟨e, he, hmk⟩ := List.mem_filterMap.mp hr₀'
  refine ⟨e, he, ?_⟩
  suffices hsr : ({ r with rank := 1 } : HorsePrediction) = r₀ by rw [hmk, hsr]
  have hrank : r₀.rank = 1 := by
    rcases h : analyzeHorse grade e with _ | a
    · unfold mkRow at hmk
      rw [h] at hmk
      simp at hmk
    · unfold mkRow at hmk
      rw [h, Option.map_some'] at hmk
      rw [← Option.some_inj.mp hmk]
  subst hfp
  cases r₀
  simp_all

/-- CLAIM C4 counterexample inputs: a favorite and a longshot. -/
def raceOpenPlain : Race :=
  { venue := none, trackCondition := none, courseType := some "芝",
    distance := 2000, grade := some "OP" }

/-- C4 counterexample: in a 2-horse race the longshot (popularity 10) ends
ranked 2 with `popularity − rank = 8 ≥ 3`, yet the dark-horse flag is false:
the code flags on `popularity ≥ 6 ∧ score ≥ 0.15`, not on the claimed
popularity-vs-rank gap (nor any median). -/
theorem c4_dark_horse_counterexample :
    ((createPredictionRankings
        [{ horseId := 1, horseName := some "A", horseNumber := some 1,
           postPosition := none, runningStyle := some "STALKER",
           odds := some 1.5, popularity := some 1 },
         { horseId := 2, horseName := some "B", horseNumber := some 2,
           postPosition := none, runningStyle := some "CLOSER",
           odds := some 50, popularity := some 10 }] raceOpenPlain []).get? 1).map
      (fun r => (r.rank, r.popularity, r.isDarkHorse)) = some (2, some 10, false) ∧
    (3 : Int) ≤ 10 - 2 := by
  refine ⟨?_, by norm_num⟩
  decide

/-- C4 amended: a ranked horse is flagged dark-horse iff its declared
popularity is present (and nonzero) and at least 6 AND its composite score is
at least 0.15 — rank and score-median play no part. -/
theorem c4_dark_horse_rule (entries : List Entry) (grade : Option String)
    (pace : PacePrediction) (race : Race) (ml : List (ℕ × ℚ))
    (r : HorsePrediction) (hr : r ∈ generateRankings entries grade pace race ml) :
    r.isDarkHorse = true ↔
      ((∃ p, r.popularity = some p ∧ p ≠ 0 ∧ 6 ≤ p) ∧ 0.15 ≤ r.score) := by
  obtain ⟨e, -, hmk⟩ := exists_mkRow_of_mem_generateRankings hr
  unfold mkRow at hmk
  rcases h : analyzeHorse grade e with _ | a
  · rw [h] at hmk
    simp at hmk
  · rw [h, Option.map_some'] at hmk
    have hb := Option.some_inj.mp hmk
    have hpop : r.popularity = a.popularity :=
      (congrArg HorsePrediction.popularity hb).symm
    have hdark : r.isDarkHorse =
        ((match a.popularity with
          | some p => decide (p ≠ 0 ∧ 6 ≤ p)
          | none => false) &&
          decide ((0.15 : ℚ) ≤ totalScoreCore (decide (0 < ml.length))
            (mlLookup ml e.horseId) a pace race e)) :=
      (congrArg HorsePrediction.isDarkHorse hb).symm
    have hscore : r.score = pyMin (totalScoreCore (decide (0 < ml.length))
        (mlLookup ml e.horseId) a pace race e) 1 :=
      (congrArg HorsePrediction.score hb).symm
    have hth : ((0.15 : ℚ) ≤ totalScoreCore (decide (0 < ml.length))
        (mlLookup ml e.horseId) a pace race e) ↔ 0.15 ≤ r.score := by
      rw [hscore, pyMin_eq_min, le_min_iff]
      constructor
      · intro ht
        exact ⟨ht, by norm_num⟩
      · exact fun ht => ht.1
    rw [hdark, hpop, ← hth]
    rcases a.popularity with _ | p
    · simp
    · simp [decide_eq_true_iff, and_assoc]

/-- Entry used by the C4 witness: a popularity-6 front runner at odds 2. -/
def entryFrontPop6 : Entry :=
  { horseId := 1, horseName := some "A", horseNumber := some 1,
    postPosition := none, runningStyle := some "FRONT",
    odds := some 2, popularity := some 6 }

/-- Pace prediction used by the C4 witness. -/
def paceSlowFront : PacePrediction :=
  { type := "slow", confidence := 0.8,
    advantageousStyles := ["FRONT", "STALKER"], escapeCount := 0,
    frontCount := 1 }

/-- The (unique) ranking row produced for `entryFrontPop6`. -/
def rowFrontPop6 : HorsePrediction :=
  { rank := 1, horseId := 1, horseName := "A", horseNumber := 1,
    score := 0.384375, winProbability := 0.15375, placeProbability := 0.46125,
    popularity := some 6, odds := some 2, isDarkHorse := true }

/-- Composite-score formula as the SPEC's words state it for the
rule-only (no-ML) path: `pace×0.50 + closing×0.25 + track×0.25`, with no
other term.  Defined only to compare against the code's formula. -/
def specCompositeNoMl (paceScore closingScore trackScore : ℚ) : ℚ :=
  paceScore * 0.50 + closingScore * 0.25 + trackScore * 0.25

/-- C1 counterexample: for a concrete one-horse field with no ML score the
pipeline's composite score is 273/800 = 0.34125, while the spec's
`pace×0.50 + closing×0.25 + track×0.25` over the same sub-scores gives
49/160 = 0.30625 — the code blends an odds-derived base score at weight 0.2
and uses weights 0.35/0.25/0.2, not 0.50/0.25/0.25. -/
theorem c1_composite_weights_counterexample :
    (createPredictionRankings [entryStalkerFavorite] raceOpenPlain []).map
        (·.score) = [273/800] ∧
    (analyzeHorse raceOpenPlain.grade entryStalkerFavorite).map (fun a =>
        specCompositeNoMl
          (calculatePaceScore a
            (predictPaceService [entryStalkerFavorite] raceOpenPlain)
            (some raceOpenPlain) (some entryStalkerFavorite))
          (calculateLast3fScore a
            (predictPaceService [entryStalkerFavorite] raceOpenPlain))
          (calculateTrackRecordScore a)) = some (49/160) ∧
    (273/800 : ℚ) ≠ 49/160 := by
  refine ⟨by decide, by decide, by norm_num⟩

/-- C1 amended: the composite score is
`base(odds)×0.2 + pace×0.35 + closing×0.25 + track×0.2` (an odds-derived
base score IS included) in the rule-only path, and
`ml×0.4 + pace×0.25 + closing×0.2 + track×0.15` when any ML prediction is
present, clamped to at most 1. -/
theorem c1_composite_weights :
    (∀ (entries : List Entry) (grade : Option String) (pace : PacePrediction)
        (race : Race) (r : HorsePrediction),
        r ∈ generateRankings entries grade pace race [] →
          ∃ e ∈ entries, ∃ a, analyzeHorse grade e = some a ∧
            r.score = pyMin (baseScoreOf a * 0.2 +
              calculatePaceScore a pace (some race) (some e) * 0.35 +
              calculateLast3fScore a pace * 0.25 +
              calculateTrackRecordScore a * 0.2) 1) ∧
    (∀ (entries : List Entry) (grade : Option String) (pace : PacePrediction)
        (race : Race) (ml : List (ℕ × ℚ)) (r : HorsePrediction), ml ≠ [] →
        r ∈ generateRankings entries grade pace race ml →
          ∃ e ∈ entries, ∃ a, analyzeHorse grade e = some a ∧
            r.score = pyMin (mlLookup ml e.horseId * 0.4 +
              calculatePaceScore a pace (some race) (some e) * 0.25 +
              calculateLast3fScore a pace * 0.2 +
              calculateTrackRecordScore a * 0.15) 1) := by
  constructor
  · intro entries grade pace race r hr
    obtain ⟨e, he, hmk⟩ := exists_mkRow_of_mem_generateRankings hr
    rcases h : analyzeHorse grade e with _ | a
    · rw [mkRow, h] at hmk
      simp at hmk
    · rw [mkRow, h, Option.map_some'] at hmk
      have hb := Option.some_inj.mp hmk
      refine ⟨e, he, a, h, ?_⟩
      have hscore := (congrArg HorsePrediction.score hb).symm
      rw [hscore]
      rfl
  · intro entries grade pace race ml r hne hr
    obtain ⟨e, he, hmk⟩ := exists_mkRow_of_mem_generateRankings hr
    rcases h : analyzeHorse grade e with _ | a
    · rw [mkRow, h] at hmk
      simp at hmk
    · rw [mkRow, h, Option.map_some'] at hmk
      have hb := Option.some_inj.mp hmk
      refine ⟨e, he, a, h, ?_⟩
      have hscore := (congrArg HorsePrediction.score hb).symm
      rw [hscore]
      have hdec : decide (0 < ml.length) = true := by
        cases ml
        · exact absurd rfl hne
        · simp
      rw [hdec]
      rfl

/-- Witness for C1's amended formula at the concrete one-horse race. -/
theorem c1_composite_weights_witness :
    ∃ e ∈ [entryFrontPop6], ∃ a, analyzeHorse (some "OP") e = some a ∧
      rowFrontPop6.score = pyMin (baseScoreOf a * 0.2 +
        calculatePaceScore a paceSlowFront (some raceOpenPlain)
          (some e) * 0.35 +
        calculateLast3fScore a paceSlowFront * 0.25 +
        calculateTrackRecordScore a * 0.2) 1 :=
  c1_composite_weights.1 [entryFrontPop6] (some "OP") paceSlowFront
    raceOpenPlain rowFrontPop6 (by decide)

theorem pyMin_le_right (a b : ℚ) : pyMin a b ≤ b := by
  rw [pyMin_eq_min]; exact min_le_right a b

theorem le_pyMin {a b c : ℚ} (h₁ : c ≤ a) (h₂ : c ≤ b) : c ≤ pyMin a b := by
  rw [pyMin_eq_min]; exact le_min h₁ h₂

theorem pyMax_le {a b c : ℚ} (h₁ : a ≤ c) (h₂ : b ≤ c) : pyMax a b ≤ c := by
  rw [pyMax_eq_max]; exact max_le h₁ h₂

theorem le_pyMax_left (a b : ℚ) : a ≤ pyMax a b := by
  rw [pyMax_eq_max]; exact le_max_left a b

/-- `_calculate_pace_score` is clamped to `[0.05, 0.5]`. -/
theorem calculatePaceScore_bounds (analysis : HorseAnalysis)
    (pace : PacePrediction) (race : Option Race) (entry : Option Entry) :
    0.05 ≤ calculatePaceScore analysis pace race entry ∧
      calculatePaceScore analysis pace race entry ≤ 0.5 := by
  unfold calculatePaceScore
  exact ⟨le_pyMax_left _ _, pyMax_le (by norm_num) (pyMin_le_right _ _)⟩

/-- `_calculate_last_3f_score` lies in `[0, 0.4]`. -/
theorem calculateLast3fScore_bounds (analysis : HorseAnalysis)
    (pace : PacePrediction) :
    0 ≤ calculateLast3fScore analysis pace ∧
      calculateLast3fScore analysis pace ≤ 0.4 := by
  unfold calculateLast3fScore
  refine ⟨le_pyMin ?_ (by norm_num), pyMin_le_right _ _⟩
  have hstab : (0 : ℚ) ≤ 1 - pyMin ((analysis.avgLast3f - analysis.bestLast3f) / 2) 0.3 := by
    have := pyMin_le_right ((analysis.avgLast3f - analysis.bestLast3f) / 2) 0.3
    linarith
  split_ifs <;> nlinarith [hstab]

/-- `_calculate_track_record_score` lies in `[0, 0.4]` whenever the win and
place rates are nonnegative. -/
theorem calculateTrackRecordScore_bounds (analysis : HorseAnalysis)
    (hw : 0 ≤ analysis.winRate) (hp : 0 ≤ analysis.placeRate) :
    0 ≤ calculateTrackRecordScore analysis ∧
      calculateTrackRecordScore analysis ≤ 0.4 := by
  unfold calculateTrackRecordScore
  refine ⟨le_pyMin ?_ (by norm_num), pyMin_le_right _ _⟩
  have : (0 : ℚ) ≤
      (if 3 ≤ analysis.gradeRaceWins then (0.3 : ℚ)
       else if 1 ≤ analysis.gradeRaceWins then 0.2
       else 0.05) := by
    split_ifs <;> norm_num
  have h1 : 0 ≤ analysis.winRate * 0.4 := mul_nonneg hw (by norm_num)
  have h2 : 0 ≤ analysis.placeRate * 0.3 := mul_nonneg hp (by norm_num)
  linarith

/-- The fields `_analyze_all_horses` derives: win/place rates are bounded and
the odds / popularity fields are carried through unchanged. -/
theorem analyzeHorse_fields {grade : Option String} {e : Entry}
    {a : HorseAnalysis} (h : analyzeHorse grade e = some a) :
    0 ≤ a.winRate ∧ a.winRate ≤ 0.5 ∧ 0 ≤ a.placeRate ∧ a.placeRate ≤ 0.8 ∧
      a.odds = e.odds ∧ a.popularity = e.popularity := by
  rcases he : e.horseName with _ | n
  · rw [analyzeHorse, he] at h
    simp at h
  · rw [analyzeHorse, he] at h
    simp only [Option.some_inj] at h
    subst h
    refine ⟨?_, ?_, ?_, ?_, rfl, rfl⟩ <;>
      simp only [] <;> split_ifs with hodds
    · exact le_pyMin (le_of_lt (by positivity)) (by norm_num)
    · norm_num
    · exact pyMin_le_right _ _
    · norm_num
    · exact le_pyMin (le_of_lt (by positivity)) (by norm_num)
    · norm_num
    · exact pyMin_le_right _ _
    · norm_num

/-- `ml_predictions.get(horse_id, 0.0)` stays in `[0,1]` when every stored
probability does. -/
theorem mlLookup_bounds (ml : List (ℕ × ℚ)) (id : ℕ)
    (h : ∀ pq ∈ ml, 0 ≤ pq.2 ∧ pq.2 ≤ 1) :
    0 ≤ mlLookup ml id ∧ mlLookup ml id ≤ 1 := by
  unfold mlLookup
  rcases hf : ml.find? (fun p => p.1 = id) with _ | pq
  · rw [hf]
    norm_num
  · rw [hf]
    have := h pq (List.mem_of_find?_eq_some hf)
    simpa using this

/-- The composite score of `_generate_rankings_with_pace` lies in `[0, 1]`
(given in-range ML values; for the upper bound the odds, when present, must
be ≥ 1 — an `EntryView` invariant). -/
theorem totalScoreCore_bounds (useMl : Bool) (mlScore : ℚ)
    (analysis : HorseAnalysis) (pace : PacePrediction) (race : Race) (e : Entry)
    (hml : 0 ≤ mlScore ∧ mlScore ≤ 1)
    (hw : 0 ≤ analysis.winRate) (hp : 0 ≤ analysis.placeRate)
    (hodds : ∀ q, analysis.odds = some q → 1 ≤ q) :
    0 ≤ totalScoreCore useMl mlScore analysis pace race e ∧
      totalScoreCore useMl mlScore analysis pace race e ≤ 1 := by
  have hbase : 0 ≤ baseScoreOf analysis ∧ baseScoreOf analysis ≤ 1 := by
    rcases ho : analysis.odds with _ | o
    · simp only [baseScoreOf, ho]
      norm_num
    · have h1 := hodds o ho
      simp only [baseScoreOf, ho]
      rw [if_pos (show (0 : ℚ) < o by linarith)]
      constructor
      · positivity
      · rw [div_le_one (by linarith)]
        linarith
  have hpace := calculatePaceScore_bounds analysis pace (some race) (some e)
  have hl3f := calculateLast3fScore_bounds analysis pace
  have htr := calculateTrackRecordScore_bounds analysis hw hp
  unfold totalScoreCore
  rcases useMl with _ | _
  · simp only [Bool.false_eq_true, if_false]
    constructor <;> nlinarith [hbase.1, hbase.2, hpace.1, hpace.2, hl3f.1,
      hl3f.2, htr.1, htr.2]
  · simp only [if_true]
    constructor <;> nlinarith [hml.1, hml.2, hpace.1, hpace.2, hl3f.1,
      hl3f.2, htr.1, htr.2]

/-- C10: each ranking row's win probability is `min(score×0.4, 0.5)` and its
place probability `min(score×1.2, 0.85)`; the caps 0.5 / 0.85 hold
unconditionally. -/
theorem c10_probability_estimates :
    (∀ (entries : List Entry) (grade : Option String) (pace : PacePrediction)
        (race : Race) (ml : List (ℕ × ℚ)) (r : HorsePrediction),
        r ∈ generateRankings entries grade pace race ml →
          r.winProbability ≤ 0.5 ∧ r.placeProbability ≤ 0.85) ∧
    (∀ (entries : List Entry) (race : Race) (ml : List (ℕ × ℚ))
        (r : HorsePrediction),
        (∀ e ∈ entries, ∀ q, e.odds = some q → 1 ≤ q) →
        (∀ pq ∈ ml, 0 ≤ pq.2 ∧ pq.2 ≤ 1) →
        r ∈ createPredictionRankings entries race ml →
          r.winProbability = pyMin (r.score * 0.4) 0.5 ∧
          r.placeProbability = pyMin (r.score * 1.2) 0.85) := by
  constructor
  · intro entries grade pace race ml r hr
    obtain ⟨e, -, hmk⟩ := exists_mkRow_of_mem_generateRankings hr
    rcases h : analyzeHorse grade e with _ | a
    · rw [mkRow, h] at hmk
      simp at hmk
    · rw [mkRow, h, Option.map_some'] at hmk
      have hb := Option.some_inj.mp hmk
      have h1 : r.winProbability = pyMin (totalScoreCore (decide (0 < ml.length))
          (mlLookup ml e.horseId) a pace race e * 0.4) 0.5 :=
        (congrArg HorsePrediction.winProbability hb).symm
      have h2 : r.placeProbability = pyMin (totalScoreCore (decide (0 < ml.length))
          (mlLookup ml e.horseId) a pace race e * 1.2) 0.85 :=
        (congrArg HorsePrediction.placeProbability hb).symm
      rw [h1, h2]
      exact ⟨pyMin_le_right _ _, pyMin_le_right _ _⟩
  · intro entries race ml r hodds hml hr
    obtain ⟨e, he, hmk⟩ := exists_mkRow_of_mem_generateRankings hr
    rcases h : analyzeHorse race.grade e with _ | a
    · rw [mkRow, h] at hmk
      simp at hmk
    · rw [mkRow, h, Option.map_some'] at hmk
      have hb := Option.some_inj.mp hmk
      have hfields := analyzeHorse_fields h
      have htot := totalScoreCore_bounds (decide (0 < ml.length))
        (mlLookup ml e.horseId) a (predictPaceService entries race) race e
        (mlLookup_bounds ml e.horseId hml) hfields.1 hfields.2.2.1
        (fun q hq => hodds e he q (hfields.2.2.2.2.1 ▸ hq))
      have hscore : r.score = pyMin (totalScoreCore (decide (0 < ml.length))
          (mlLookup ml e.horseId) a (predictPaceService entries race) race e) 1 :=
        (congrArg HorsePrediction.score hb).symm
      have hse : r.score = totalScoreCore (decide (0 < ml.length))
          (mlLookup ml e.horseId) a (predictPaceService entries race) race e := by
        rw [hscore, pyMin]
        exact if_pos htot.2
      have h1 : r.winProbability = pyMin (totalScoreCore (decide (0 < ml.length))
          (mlLookup ml e.horseId) a (predictPaceService entries race) race e * 0.4)
          0.5 := (congrArg HorsePrediction.winProbability hb).symm
      have h2 : r.placeProbability = pyMin (totalScoreCore (decide (0 < ml.length))
          (mlLookup ml e.horseId) a (predictPaceService entries race) race e * 1.2)
          0.85 := (congrArg HorsePrediction.placeProbability hb).symm
      rw [h1, h2, ← hse]
      exact ⟨rfl, rfl⟩

/-- Witness for C10 at the concrete one-horse race. -/
theorem c10_probability_estimates_witness :
    rowFrontPop6.winProbability ≤ 0.5 ∧
    rowFrontPop6.winProbability = pyMin (rowFrontPop6.score * 0.4) 0.5 ∧
    rowFrontPop6.placeProbability = pyMin (rowFrontPop6.score * 1.2) 0.85 :=
  ⟨(c10_probability_estimates.1 [entryFrontPop6] (some "OP") paceSlowFront
      raceOpenPlain [] rowFrontPop6 (by decide)).1,
   (c10_probability_estimates.2 [entryFrontPop6] raceOpenPlain [] rowFrontPop6
      (by
        intro e he q hq
        rw [List.mem_singleton] at he
        subst he
        simp only [entryFrontPop6, Option.some_inj] at hq
        rw [← hq]
        norm_num)
      (by
        intro pq hpq
        exact absurd hpq (List.not_mem_nil pq))
      (by decide))⟩

/-- Witness for C4's amended rule: the popularity-6 row with score ≥ 0.15 is
flagged dark-horse. -/
theorem c4_dark_horse_rule_witness :
    rowFrontPop6 ∈ generateRankings [entryFrontPop6] (some "OP") paceSlowFront
      raceOpenPlain [] ∧
    (rowFrontPop6.isDarkHorse = true ↔
      ((∃ p, rowFrontPop6.popularity = some p ∧ p ≠ 0 ∧ 6 ≤ p) ∧
        0.15 ≤ rowFrontPop6.score)) :=
  ⟨by decide,
   c4_dark_horse_rule [entryFrontPop6] (some "OP") paceSlowFront raceOpenPlain
     [] rowFrontPop6 (by decide)⟩

/-! ### C9: unknown running styles -/

/-- The four concrete running styles the engine's rules test for. -/
def fourStyles : List String := ["ESCAPE", "FRONT", "STALKER", "CLOSER"]

/-- The five declared running-style values. -/
def knownStyles : List String := ["ESCAPE", "FRONT", "STALKER", "CLOSER", "VERSATILE"]

/-- Substitute VERSATILE for a running style outside the known set
(the treatment the spec mandates for unknown styles). -/
def normalizeEntryStyle (e : Entry) : Entry :=
  let s := pyOrStr e.runningStyle "VERSATILE"
  { e with runningStyle := some (if s ∈ knownStyles then s else "VERSATILE") }

/-- An entry whose scraped running style is not one of the five known tags. -/
def entryUnknownStyle : Entry :=
  { horseId := 1, horseName := some "X", horseNumber := some 1,
    postPosition := some 1, runningStyle := some "UNKNOWN",
    odds := some 10, popularity := some 5 }

/-- C9 counterexample: the start formation does NOT treat an unknown style
as VERSATILE — the horse is appended to no style group, so it appears in no
formation row (while the VERSATILE substitute is placed in the 中団 row);
`total_horses` still counts it. -/
theorem c9_start_formation_counterexample :
    generateStartFormation [entryUnknownStyle] ≠
      generateStartFormation [normalizeEntryStyle entryUnknownStyle] ∧
    (generateStartFormation [entryUnknownStyle]).rows = [] ∧
    (generateStartFormation [normalizeEntryStyle entryUnknownStyle]).rows =
      [{ rowIndex := 0, rowLabel := "中団",
         horses := [{ horseNumber := 1, horseName := "X",
                      runningStyle := "VERSATILE" }] }] ∧
    (generateStartFormation [entryUnknownStyle]).totalHorses = 1 := by
  refine ⟨?_, ?_, ?_, ?_⟩ <;> decide

theorem pyOrStr_versatile_ne_empty (s : Option String) :
    pyOrStr s "VERSATILE" ≠ "" := by
  rcases s with _ | v
  · simp [pyOrStr]
  · simp only [pyOrStr]
    split_ifs with h
    · simp
    · exact h

theorem pyOrStr_some_of_ne {v : String} (d : String) (h : v ≠ "") :
    pyOrStr (some v) d = v := by
  simp [pyOrStr, h]

/-- The effective style of a normalized entry. -/
theorem normStyle_eq (e : Entry) :
    pyOrStr (normalizeEntryStyle e).runningStyle "VERSATILE" =
      (if pyOrStr e.runningStyle "VERSATILE" ∈ knownStyles then
          pyOrStr e.runningStyle "VERSATILE"
        else "VERSATILE") := by
  have hne : (if pyOrStr e.runningStyle "VERSATILE" ∈ knownStyles then
      pyOrStr e.runningStyle "VERSATILE" else "VERSATILE") ≠ "" := by
    split_ifs
    · exact pyOrStr_versatile_ne_empty e.runningStyle
    · simp
  exact pyOrStr_some_of_ne _ hne

/-- Normalization does not change whether the effective style equals one of
the four concrete styles. -/
theorem normStyle_four_iff (e : Entry) (t : String) (ht : t ∈ fourStyles) :
    (pyOrStr (normalizeEntryStyle e).runningStyle "VERSATILE" = t) ↔
      (pyOrStr e.runningStyle "VERSATILE" = t) := by
  rw [normStyle_eq]
  split_ifs with h
  · exact Iff.rfl
  · constructor
    · intro hv
      exfalso
      revert ht
      rw [← hv]
      decide
    · intro hv
      exfalso
      apply h
      rw [hv]
      fin_cases ht <;> decide

theorem styleToCorner_norm (e : Entry) :
    styleToCorner (pyOrStr (normalizeEntryStyle e).runningStyle "VERSATILE") =
      styleToCorner (pyOrStr e.runningStyle "VERSATILE") := by
  rw [normStyle_eq]
  split_ifs with h
  · rfl
  · simp only [knownStyles, List.mem_cons, List.not_mem_nil] at h
    push_neg at h
    simp only [styleToCorner, if_neg h.1, if_neg h.2.1, if_neg h.2.2.1,
      if_neg h.2.2.2.1, if_neg h.2.2.2.2.1]
    decide

/-- The effective style of an analysis produced by `_analyze_all_horses`. -/
theorem analyzeHorse_runningStyle {grade : Option String} {e : Entry}
    {a : HorseAnalysis} (h : analyzeHorse grade e = some a) :
    a.runningStyle = pyOrStr e.runningStyle "VERSATILE" := by
  rcases he : e.horseName with _ | n
  · rw [analyzeHorse, he] at h
    simp at h
  · rw [analyzeHorse, he] at h
    simp only [Option.some_inj] at h
    rw [← h]

/-- Analysis of a normalized entry: same record, with only the style field
rewritten. -/
theorem analyzeHorse_norm (grade : Option String) (e : Entry) :
    analyzeHorse grade (normalizeEntryStyle e) =
      (analyzeHorse grade e).map (fun a =>
        { a with runningStyle :=
            pyOrStr (normalizeEntryStyle e).runningStyle "VERSATILE" }) := by
  rcases he : e.horseName with _ | n
  · rw [analyzeHorse, analyzeHorse]
    have : (normalizeEntryStyle e).horseName = e.horseName := rfl
    rw [this, he]
    rfl
  · rw [analyzeHorse, analyzeHorse]
    have h1 : (normalizeEntryStyle e).horseName = e.horseName := rfl
    rw [h1, he, Option.map_some']
    have h2 : (normalizeEntryStyle e).popularity = e.popularity := rfl
    have h3 : (normalizeEntryStyle e).odds = e.odds := rfl
    have h4 : (normalizeEntryStyle e).horseNumber = e.horseNumber := rfl
    have h5 : (normalizeEntryStyle e).horseId = e.horseId := rfl
    simp only [Option.some_inj, h2, h3, h4, h5, styleToCorner_norm]

/-- The post-position effect is neutral for any style outside the four
concrete ones. -/
theorem calculatePostPositionEffect_notFour (pp : Option Int) (s : String)
    (v : Option String) (hf : s ∉ fourStyles) (hne : s ≠ "") :
    calculatePostPositionEffect pp (some s) v = 1 := by
  simp only [fourStyles, List.mem_cons, List.not_mem_nil, or_false] at hf
  push_neg at hf
  rcases pp with _ | p
  · rfl
  · simp only [calculatePostPositionEffect, if_neg hne, if_neg hf.1,
      if_neg hf.2.1]
    rw [if_neg]
    simp [hf.2.2.1, hf.2.2.2]

set_option maxHeartbeats 1000000 in
/-- `_calculate_pace_score` gives the same score to any two styles that are
outside both the advantaged list and the four concrete styles. -/
theorem calculatePaceScore_styleCongr (a : HorseAnalysis) (s₁ s₂ : String)
    (pace : PacePrediction) (race : Option Race) (entry : Option Entry)
    (h₁ : s₁ ∉ pace.advantageousStyles) (h₂ : s₂ ∉ pace.advantageousStyles)
    (hf₁ : s₁ ∉ fourStyles) (hf₂ : s₂ ∉ fourStyles)
    (hne₁ : s₁ ≠ "") (hne₂ : s₂ ≠ "") :
    calculatePaceScore { a with runningStyle := s₁ } pace race entry =
      calculatePaceScore { a with runningStyle := s₂ } pace race entry := by
  have hor₁ : ¬(s₁ = "ESCAPE" ∨ s₁ = "FRONT") := by
    simp only [fourStyles, List.mem_cons, List.not_mem_nil, or_false] at hf₁
    tauto
  have hst₁ : ¬(s₁ = "STALKER" ∨ s₁ = "CLOSER") := by
    simp only [fourStyles, List.mem_cons, List.not_mem_nil, or_false] at hf₁
    tauto
  have hor₂ : ¬(s₂ = "ESCAPE" ∨ s₂ = "FRONT") := by
    simp only [fourStyles, List.mem_cons, List.not_mem_nil, or_false] at hf₂
    tauto
  have hst₂ : ¬(s₂ = "STALKER" ∨ s₂ = "CLOSER") := by
    simp only [fourStyles, List.mem_cons, List.not_mem_nil, or_false] at hf₂
    tauto
  simp only [calculatePaceScore, if_neg h₁, if_neg h₂, if_neg hor₁,
    if_neg hor₂, if_neg hst₁, if_neg hst₂,
    calculatePostPositionEffect_notFour _ _ _ hf₁ hne₁,
    calculatePostPositionEffect_notFour _ _ _ hf₂ hne₂]

/-- `predict_pace` reads the style list only through the four style
counts. -/
theorem predictPace_congr_counts (l₁ l₂ : List (Option String))
    (distance : Int) (courseType venue trackCondition : Option String)
    (escapePopularities : Option (List Int))
    (hE : (l₁.filter (· = some "ESCAPE")).length =
      (l₂.filter (· = some "ESCAPE")).length)
    (hF : (l₁.filter (· = some "FRONT")).length =
      (l₂.filter (· = some "FRONT")).length)
    (hS : (l₁.filter (· = some "STALKER")).length =
      (l₂.filter (· = some "STALKER")).length)
    (hC : (l₁.filter (· = some "CLOSER")).length =
      (l₂.filter (· = some "CLOSER")).length) :
    predictPace l₁ distance courseType venue trackCondition escapePopularities =
      predictPace l₂ distance courseType venue trackCondition escapePopularities := by
  unfold predictPace
  rw [hE, hF, hS, hC]

/-- Style-normalizing the entry list does not change `_predict_pace`. -/
theorem predictPaceService_norm (entries : List Entry) (race : Race) :
    predictPaceService (entries.map normalizeEntryStyle) race =
      predictPaceService entries race := by
  have hcount : ∀ t ∈ fourStyles,
      (((entries.map normalizeEntryStyle).map
          (fun e => some (pyOrStr e.runningStyle "VERSATILE"))).filter
        (· = some t)).length =
      ((entries.map
          (fun e => some (pyOrStr e.runningStyle "VERSATILE"))).filter
        (· = some t)).length := by
    intro t ht
    rw [List.map_map, List.filter_map, List.filter_map, List.length_map,
      List.length_map]
    congr 1
    apply List.filter_congr
    intro e _
    simp only [Function.comp_apply, decide_eq_decide, Option.some_inj]
    exact normStyle_four_iff e t ht
  have hesc : ((entries.map normalizeEntryStyle).filter (fun e =>
        pyOrStr e.runningStyle "VERSATILE" = "ESCAPE" ∧
          pyTruthyInt e.popularity)).map (fun e => e.popularity.getD 0) =
      (entries.filter (fun e =>
        pyOrStr e.runningStyle "VERSATILE" = "ESCAPE" ∧
          pyTruthyInt e.popularity)).map (fun e => e.popularity.getD 0) := by
    rw [List.filter_map, List.map_map]
    have hq : ∀ e ∈ entries,
        ((fun e => decide (pyOrStr e.runningStyle "VERSATILE" = "ESCAPE" ∧
            pyTruthyInt e.popularity = true)) ∘ normalizeEntryStyle) e =
        (fun e => decide (pyOrStr e.runningStyle "VERSATILE" = "ESCAPE" ∧
            pyTruthyInt e.popularity = true)) e := by
      intro e _
      simp only [Function.comp_apply, decide_eq_decide]
      have hp : (normalizeEntryStyle e).popularity = e.popularity := rfl
      rw [hp, normStyle_four_iff e "ESCAPE" (by decide)]
    rw [List.filter_congr hq]
    apply List.map_congr_left
    intro e _
    rfl
  simp only [predictPaceService]
  rw [hesc, predictPace_congr_counts
    ((entries.map normalizeEntryStyle).map
      (fun e => some (pyOrStr e.runningStyle "VERSATILE")))
    (entries.map (fun e => some (pyOrStr e.runningStyle "VERSATILE")))
    race.distance race.courseType race.venue race.trackCondition _
    (hcount "ESCAPE" (by decide)) (hcount "FRONT" (by decide))
    (hcount "STALKER" (by decide)) (hcount "CLOSER" (by decide))]

/-- The advantaged-styles list `predict_pace` produces only ever contains
the four concrete styles. -/
theorem predictPace_advantageous_subset (styles : List (Option String))
    (distance : Int) (courseType venue trackCondition : Option String)
    (escapePopularities : Option (List Int)) :
    ∀ s ∈ (predictPace styles distance courseType venue trackCondition
      escapePopularities).advantageousStyles, s ∈ fourStyles := by
  intro s hs
  have hbase : ∀ a b : ℕ, ∀ t ∈ (basePaceOf a b).2.2, t ∈ fourStyles := by
    intro a b t htm
    unfold basePaceOf at htm
    split_ifs at htm <;>
      simp only [List.mem_cons, List.not_mem_nil, or_false] at htm <;>
      simp only [fourStyles, List.mem_cons, List.not_mem_nil, or_false] <;>
      tauto
  have hdirt : ∀ (ct : Option String) (adv : List String),
      (∀ t ∈ adv, t ∈ fourStyles) → ∀ t ∈ dirtAdjustAdvantageous ct adv,
        t ∈ fourStyles := by
    intro ct adv hadv t ht
    unfold dirtAdjustAdvantageous at ht
    split_ifs at ht
    · rcases List.mem_cons.mp ht with rfl | h
      · decide
      · exact hadv t h
    · exact hadv t ht
  have hvenue : ∀ (pt : String) (tfa : ℚ) (adv : List String),
      (∀ t ∈ adv, t ∈ fourStyles) →
        ∀ t ∈ venueAdjustAdvantageous pt tfa adv, t ∈ fourStyles := by
    intro pt tfa adv hadv t ht
    unfold venueAdjustAdvantageous at ht
    split_ifs at ht
    · rcases List.mem_cons.mp ht with rfl | h
      · decide
      · exact hadv t h
    · exact hadv t ht
    · rcases List.mem_append.mp ht with h | h
      · exact hadv t h
      · rcases List.mem_singleton.mp h with rfl
        decide
    · exact hadv t ht
    · exact hadv t ht
  exact hvenue _ _ _ (hdirt _ _ (hbase _ _)) s hs

theorem fourStyles_subset_known : ∀ t ∈ fourStyles, t ∈ knownStyles := by
  decide

/-- `_calculate_pace_score` reads the entry only through its post
position. -/
theorem calculatePaceScore_entry_congr (a : HorseAnalysis)
    (pace : PacePrediction) (race : Option Race) (e₁ e₂ : Entry)
    (hpp : e₁.postPosition = e₂.postPosition) :
    calculatePaceScore a pace race (some e₁) =
      calculatePaceScore a pace race (some e₂) := by
  rcases race with _ | r
  · rfl
  · simp only [calculatePaceScore, hpp]

/-- One ranking-row construction is invariant under style normalization
(provided the pace's advantaged list only holds the four concrete styles,
which `predict_pace` guarantees). -/
theorem mkRow_norm (u : Bool) (ml : List (ℕ × ℚ)) (grade : Option String)
    (pace : PacePrediction) (race : Race)
    (hadv : ∀ s ∈ pace.advantageousStyles, s ∈ fourStyles) (e : Entry) :
    mkRow u ml grade pace race (normalizeEntryStyle e) =
      mkRow u ml grade pace race e := by
  unfold mkRow
  rw [analyzeHorse_norm]
  rcases h : analyzeHorse grade e with _ | a
  · rfl
  · rw [Option.map_some', Option.map_some', Option.map_some']
    have hstyle := analyzeHorse_runningStyle h
    have hps : calculatePaceScore
        { a with runningStyle :=
            pyOrStr (normalizeEntryStyle e).runningStyle "VERSATILE" } pace
        (some race) (some (normalizeEntryStyle e)) =
        calculatePaceScore a pace (some race) (some e) := by
      have hppc := calculatePaceScore_entry_congr
        { a with runningStyle :=
            pyOrStr (normalizeEntryStyle e).runningStyle "VERSATILE" } pace
        (some race) (normalizeEntryStyle e) e rfl
      rw [hppc]
      by_cases hk : pyOrStr e.runningStyle "VERSATILE" ∈ knownStyles
      · have hns : pyOrStr (normalizeEntryStyle e).runningStyle "VERSATILE" =
            pyOrStr e.runningStyle "VERSATILE" := by
          rw [normStyle_eq, if_pos hk]
        rw [hns, ← hstyle]
      · have hns : pyOrStr (normalizeEntryStyle e).runningStyle "VERSATILE" =
            "VERSATILE" := by
          rw [normStyle_eq, if_neg hk]
        have hnotfour : pyOrStr e.runningStyle "VERSATILE" ∉ fourStyles :=
          fun hmem => hk (fourStyles_subset_known _ hmem)
        have hv₁ : "VERSATILE" ∉ pace.advantageousStyles :=
          fun hmem => by
            have := hadv _ hmem
            revert this
            decide
        have hv₂ : pyOrStr e.runningStyle "VERSATILE" ∉ pace.advantageousStyles :=
          fun hmem => hnotfour (hadv _ hmem)
        have hcongr := calculatePaceScore_styleCongr a "VERSATILE"
          (pyOrStr e.runningStyle "VERSATILE") pace (some race) (some e)
          hv₁ hv₂ (by decide) hnotfour (by decide)
          (pyOrStr_versatile_ne_empty e.runningStyle)
        rw [hns, hcongr, ← hstyle]
    have htot : totalScoreCore u (mlLookup ml e.horseId)
        { a with runningStyle :=
            pyOrStr (normalizeEntryStyle e).runningStyle "VERSATILE" } pace race
        (normalizeEntryStyle e) =
        totalScoreCore u (mlLookup ml e.horseId) a pace race e := by
      unfold totalScoreCore
      rw [hps]
      rfl
    have hid : (normalizeEntryStyle e).horseId = e.horseId := rfl
    simp only [htot, hid]

/-- The advantaged list the service-level pace prediction carries only holds
the four concrete styles. -/
theorem predictPaceService_advantageous_subset (entries : List Entry)
    (race : Race) :
    ∀ s ∈ (predictPaceService entries race).advantageousStyles,
      s ∈ fourStyles := by
  intro s hs
  simp only [predictPaceService] at hs
  exact predictPace_advantageous_subset _ _ _ _ _ _ s hs

/-- C9 amended (prediction half): the ranking pipeline treats an unknown
running style exactly as VERSATILE — substituting VERSATILE for every
unknown style leaves `create_prediction`'s rankings unchanged. -/
theorem c9_prediction_unknown_as_versatile (entries : List Entry)
    (race : Race) (ml : List (ℕ × ℚ)) :
    createPredictionRankings (entries.map normalizeEntryStyle) race ml =
      createPredictionRankings entries race ml := by
  unfold createPredictionRankings
  rw [predictPaceService_norm]
  unfold generateRankings
  have hrows : (entries.map normalizeEntryStyle).filterMap
      (mkRow (decide (0 < ml.length)) ml race.grade
        (predictPaceService entries race) race) =
      entries.filterMap
        (mkRow (decide (0 < ml.length)) ml race.grade
          (predictPaceService entries race) race) := by
    rw [List.filterMap_map]
    apply List.filterMap_congr
    intro e _
    exact mkRow_norm _ _ _ _ _
      (predictPaceService_advantageous_subset entries race) e
  simp only [hrows]

/-! ### C7: invariants of the ranking output -/

/-- An entry naming a horse always produces a ranking row, carrying the
entry's horse id and the placeholder rank 1. -/
theorem mkRow_isSome_of_name (u : Bool) (ml : List (ℕ × ℚ))
    (grade : Option String) (pace : PacePrediction) (race : Race) {e : Entry}
    {nm : String} (he : e.horseName = some nm) :
    ∃ row, mkRow u ml grade pace race e = some row ∧
      row.horseId = e.horseId ∧ row.rank = 1 := by
  simp only [mkRow, analyzeHorse, he, Option.map_some']
  exact ⟨_, rfl, rfl, rfl⟩

/-- Every row the ranking loop builds carries the placeholder rank 1
(the real ranks are assigned after the sort). -/
theorem mkRow_rank_eq_one {u : Bool} {ml : List (ℕ × ℚ)}
    {grade : Option String} {pace : PacePrediction} {race : Race} {e : Entry}
    {row : HorsePrediction} (h : mkRow u ml grade pace race e = some row) :
    row.rank = 1 := by
  rcases ha : analyzeHorse grade e with _ | a
  · rw [mkRow, ha] at h
    simp at h
  · rw [mkRow, ha, Option.map_some'] at h
    exact (congrArg HorsePrediction.rank (Option.some_inj.mp h)).symm

/-- Re-setting a rank-1 row's rank to 1 is the identity. -/
theorem withRank_one_eq {r : HorsePrediction} (h : r.rank = 1) :
    ({ r with rank := 1 } : HorsePrediction) = r := by
  cases r
  simp only [HorsePrediction.mk.injEq, and_true, true_and]
  exact h.symm

/-- The ranking loop keeps one row per (named) entry, in entry order,
carrying the entry's horse id. -/
theorem filterMap_mkRow_map_horseId (u : Bool) (ml : List (ℕ × ℚ))
    (grade : Option String) (pace : PacePrediction) (race : Race)
    (entries : List Entry) (hname : ∀ e ∈ entries, e.horseName.isSome = true) :
    (entries.filterMap (mkRow u ml grade pace race)).map (fun r => r.horseId) =
      entries.map (fun e => e.horseId) := by
  revert hname
  induction entries with
  | nil => intro _; rfl
  | cons e rest ih =>
    intro hname
    rcases he : e.horseName with _ | nm
    · have h1 := hname e (List.mem_cons_self e rest)
      rw [he] at h1
      simp at h1
    · obtain ⟨row, hrow, hid, -⟩ := mkRow_isSome_of_name u ml grade pace race he
      simp only [List.filterMap_cons, hrow, List.map_cons, hid]
      exact congrArg (List.cons e.horseId)
        (ih (fun e' he' => hname e' (List.mem_cons_of_mem e he')))

/-- `assignRanks` only rewrites the rank field: any projection that ignores
the rank is preserved pointwise. -/
theorem enumFrom_assign_map {β : Type} (f : HorsePrediction → β)
    (hf : ∀ (r : HorsePrediction) (n : ℕ), f { r with rank := n } = f r) :
    ∀ (l : List HorsePrediction) (n : ℕ),
      ((l.enumFrom n).map (fun p => { p.2 with rank := p.1 + 1 })).map f =
        l.map f
  | [], _ => rfl
  | a :: t, n => by
    simp only [List.enumFrom_cons, List.map_cons, hf,
      enumFrom_assign_map f hf t (n + 1)]

/-- See `enumFrom_assign_map`. -/
theorem assignRanks_map {β : Type} (f : HorsePrediction → β)
    (hf : ∀ (r : HorsePrediction) (n : ℕ), f { r with rank := n } = f r)
    (l : List HorsePrediction) : (assignRanks l).map f = l.map f :=
  enumFrom_assign_map f hf l 0

/-- The ranks `assignRanks` writes are the consecutive integers starting at
one more than the enumeration offset. -/
theorem enumFrom_assign_map_rank :
    ∀ (l : List HorsePrediction) (n : ℕ),
      ((l.enumFrom n).map (fun p => { p.2 with rank := p.1 + 1 })).map
          (fun r => r.rank) =
        List.range' (n + 1) l.length
  | [], _ => rfl
  | a :: t, n => by
    simp only [List.enumFrom_cons, List.map_cons, List.length_cons,
      List.range'_succ, enumFrom_assign_map_rank t (n + 1)]

/-- See `enumFrom_assign_map_rank`. -/
theorem assignRanks_map_rank (l : List HorsePrediction) :
    (assignRanks l).map (fun r => r.rank) = List.range' 1 l.length :=
  enumFrom_assign_map_rank l 0

/-- Inserting into a descending-score list does not disturb any score class:
elements skipped over have strictly greater score, so the inserted element
lands in front of its score-equals. -/
theorem filter_orderedInsert_score (q : ℚ) (a : HorsePrediction) :
    ∀ s : List HorsePrediction,
      (List.orderedInsert scoreGE a s).filter (fun r => decide (r.score = q)) =
        (if a.score = q then [a] else []) ++
          s.filter (fun r => decide (r.score = q))
  | [] => by
    simp only [List.orderedInsert]
    by_cases ha : a.score = q <;> simp [List.filter_cons, ha]
  | b :: t => by
    simp only [List.orderedInsert]
    by_cases hr : scoreGE a b
    · rw [if_pos hr]
      by_cases ha : a.score = q <;> simp [List.filter_cons, ha]
    · rw [if_neg hr]
      have hr' : ¬ b.score ≤ a.score := hr
      have hab : a.score < b.score := lt_of_not_le hr'
      by_cases ha : a.score = q <;> by_cases hb : b.score = q
      · exact absurd (ha.trans hb.symm) (ne_of_lt hab)
      · simp [List.filter_cons, ha, hb, filter_orderedInsert_score q a t]
      · simp [List.filter_cons, ha, hb, filter_orderedInsert_score q a t]
      · simp [List.filter_cons, ha, hb, filter_orderedInsert_score q a t]

/-- Stability of the descending insertion sort: each score class comes out in
input order. -/
theorem filter_insertionSort_score (q : ℚ) :
    ∀ l : List HorsePrediction,
      (List.insertionSort scoreGE l).filter (fun r => decide (r.score = q)) =
        l.filter (fun r => decide (r.score = q))
  | [] => rfl
  | a :: t => by
    simp only [List.insertionSort]
    rw [filter_orderedInsert_score q a (List.insertionSort scoreGE t),
      filter_insertionSort_score q t]
    by_cases ha : a.score = q <;> simp [List.filter_cons, ha]

/-- CLAIM C7: for every entry list in which each entry names a horse (with
in-range ML scores and odds ≥ 1 where present), `_generate_rankings_with_pace`
returns exactly one row per entry (the output horse ids are a permutation of
the input ones), the ranks form the dense sequence 1..N, every composite
score lies in [0, 1], the rows are ordered non-increasingly by score, and
each score class keeps its original entry order (the sort is stable). -/
theorem c7_ranking_invariants (entries : List Entry) (grade : Option String)
    (pace : PacePrediction) (race : Race) (ml : List (ℕ × ℚ))
    (hname : ∀ e ∈ entries, e.horseName.isSome = true)
    (hml : ∀ pq ∈ ml, 0 ≤ pq.2 ∧ pq.2 ≤ 1)
    (hodds : ∀ e ∈ entries, ∀ q, e.odds = some q → 1 ≤ q) :
    (generateRankings entries grade pace race ml).length = entries.length ∧
    (generateRankings entries grade pace race ml).map (fun r => r.rank) =
      List.range' 1 entries.length ∧
    ((generateRankings entries grade pace race ml).map
        (fun r => r.horseId)).Perm (entries.map (fun e => e.horseId)) ∧
    (∀ r ∈ generateRankings entries grade pace race ml,
        0 ≤ r.score ∧ r.score ≤ 1) ∧
    (generateRankings entries grade pace race ml).Pairwise
      (fun a b => b.score ≤ a.score) ∧
    ∀ q : ℚ,
      ((generateRankings entries grade pace race ml).filter
            (fun r => decide (r.score = q))).map
          (fun r => { r with rank := 1 }) =
        (entries.filterMap
            (mkRow (decide (0 < ml.length)) ml grade pace race)).filter
          (fun r => decide (r.score = q)) := by
  have hmapid : (entries.filterMap
      (mkRow (decide (0 < ml.length)) ml grade pace race)).map
        (fun r => r.horseId) = entries.map (fun e => e.horseId) :=
    filterMap_mkRow_map_horseId _ ml grade pace race entries hname
  have hrowslen : (entries.filterMap
      (mkRow (decide (0 < ml.length)) ml grade pace race)).length =
        entries.length := by
    have h1 := congrArg List.length hmapid
    simpa using h1
  have hperm : (List.insertionSort scoreGE (entries.filterMap
      (mkRow (decide (0 < ml.length)) ml grade pace race))).Perm
        (entries.filterMap
          (mkRow (decide (0 < ml.length)) ml grade pace race)) :=
    List.perm_insertionSort scoreGE _
  have hsortlen : (List.insertionSort scoreGE (entries.filterMap
      (mkRow (decide (0 < ml.length)) ml grade pace race))).length =
        entries.length := hperm.length_eq.trans hrowslen
  have houtid : (generateRankings entries grade pace race ml).map
      (fun r => r.horseId) =
        (List.insertionSort scoreGE (entries.filterMap
          (mkRow (decide (0 < ml.length)) ml grade pace race))).map
          (fun r => r.horseId) :=
    assignRanks_map (fun r => r.horseId) (fun r n => rfl) _
  have hlen : (generateRankings entries grade pace race ml).length =
      entries.length := by
    have h2 := congrArg List.length houtid
    simp only [List.length_map] at h2
    exact h2.trans hsortlen
  have hranks : (generateRankings entries grade pace race ml).map
      (fun r => r.rank) = List.range' 1 entries.length := by
    have h3 := assignRanks_map_rank (List.insertionSort scoreGE
      (entries.filterMap (mkRow (decide (0 < ml.length)) ml grade pace race)))
    rw [hsortlen] at h3
    exact h3
  have hpermid : ((generateRankings entries grade pace race ml).map
      (fun r => r.horseId)).Perm (entries.map (fun e => e.horseId)) := by
    rw [houtid, ← hmapid]
    exact hperm.map _
  have hsc : ∀ r ∈ generateRankings entries grade pace race ml,
      0 ≤ r.score ∧ r.score ≤ 1 := by
    intro r hr
    obtain ⟨e, he, hmk⟩ := exists_mkRow_of_mem_generateRankings hr
    rcases h : analyzeHorse grade e with _ | a
    · rw [mkRow, h] at hmk
      simp at hmk
    · rw [mkRow, h, Option.map_some'] at hmk
      have hb := Option.some_inj.mp hmk
      have hfields := analyzeHorse_fields h
      have hoA : ∀ v, a.odds = some v → 1 ≤ v := by
        intro v hv
        refine hodds e he v ?_
        rw [← hfields.2.2.2.2.1]
        exact hv
      have htot := totalScoreCore_bounds (decide (0 < ml.length))
        (mlLookup ml e.horseId) a pace race e
        (mlLookup_bounds ml e.horseId hml) hfields.1 hfields.2.2.1 hoA
      have hscore : r.score = pyMin (totalScoreCore (decide (0 < ml.length))
          (mlLookup ml e.horseId) a pace race e) 1 :=
        (congrArg HorsePrediction.score hb).symm
      rw [hscore]
      exact ⟨le_pyMin htot.1 (by norm_num), pyMin_le_right _ _⟩
  have hpw : (generateRankings entries grade pace race ml).Pairwise
      (fun a b => b.score ≤ a.score) := by
    have hs : (List.insertionSort scoreGE (entries.filterMap
        (mkRow (decide (0 < ml.length)) ml grade pace race))).Pairwise
          scoreGE := List.sorted_insertionSort scoreGE _
    have hmap : (generateRankings entries grade pace race ml).map
        (fun r => r.score) =
          (List.insertionSort scoreGE (entries.filterMap
            (mkRow (decide (0 < ml.length)) ml grade pace race))).map
            (fun r => r.score) :=
      assignRanks_map (fun r => r.score) (fun r n => rfl) _
    have h4 : ((generateRankings entries grade pace race ml).map
        (fun r => r.score)).Pairwise (fun x y : ℚ => y ≤ x) := by
      rw [hmap]
      exact List.pairwise_map.mpr hs
    exact List.pairwise_map.mp h4
  refine ⟨hlen, hranks, hpermid, hsc, hpw, ?_⟩
  intro q
  have hm1 : (generateRankings entries grade pace race ml).map
      (fun r => ({ r with rank := 1 } : HorsePrediction)) =
        (List.insertionSort scoreGE (entries.filterMap
          (mkRow (decide (0 < ml.length)) ml grade pace race))).map
          (fun r => ({ r with rank := 1 } : HorsePrediction)) :=
    assignRanks_map (fun r => ({ r with rank := 1 } : HorsePrediction))
      (fun r n => rfl) _
  have hstep5 : ((entries.filterMap
      (mkRow (decide (0 < ml.length)) ml grade pace race)).filter
        (fun r => decide (r.score = q))).map
        (fun r => ({ r with rank := 1 } : HorsePrediction)) =
      (entries.filterMap
          (mkRow (decide (0 < ml.length)) ml grade pace race)).filter
        (fun r => decide (r.score = q)) := by
    refine (List.map_congr_left ?_).trans (List.map_id' _)
    intro r hr
    obtain ⟨e, -, hmk⟩ := List.mem_filterMap.mp (List.mem_of_mem_filter hr)
    exact withRank_one_eq (mkRow_rank_eq_one hmk)
  calc ((generateRankings entries grade pace race ml).filter
          (fun r => decide (r.score = q))).map
        (fun r => ({ r with rank := 1 } : HorsePrediction))
      = ((generateRankings entries grade pace race ml).map
          (fun r => ({ r with rank := 1 } : HorsePrediction))).filter
          (fun r => decide (r.score = q)) :=
      (@List.filter_map HorsePrediction HorsePrediction
        (fun r => decide (r.score = q))
        (fun r => ({ r with rank := 1 } : HorsePrediction))
        (generateRankings entries grade pace race ml)).symm
    _ = ((List.insertionSort scoreGE (entries.filterMap
          (mkRow (decide (0 < ml.length)) ml grade pace race))).map
          (fun r => ({ r with rank := 1 } : HorsePrediction))).filter
          (fun r => decide (r.score = q)) := by rw [hm1]
    _ = ((List.insertionSort scoreGE (entries.filterMap
          (mkRow (decide (0 < ml.length)) ml grade pace race))).filter
          (fun r => decide (r.score = q))).map
          (fun r => ({ r with rank := 1 } : HorsePrediction)) :=
      @List.filter_map HorsePrediction HorsePrediction
        (fun r => decide (r.score = q))
        (fun r => ({ r with rank := 1 } : HorsePrediction))
        (List.insertionSort scoreGE (entries.filterMap
          (mkRow (decide (0 < ml.length)) ml grade pace race)))
    _ = ((entries.filterMap
          (mkRow (decide (0 < ml.length)) ml grade pace race)).filter
          (fun r => decide (r.score = q))).map
          (fun r => ({ r with rank := 1 } : HorsePrediction)) := by
      rw [filter_insertionSort_score q]
    _ = (entries.filterMap
          (mkRow (decide (0 < ml.length)) ml grade pace race)).filter
          (fun r => decide (r.score = q)) := hstep5

/-- Entries for the C7 witness: three named horses, two of them identical in
every scored attribute (a deliberate score tie). -/
def entriesC7 : List Entry :=
  [{ horseId := 1, horseName := some "A", horseNumber := some 1,
     postPosition := some 1, runningStyle := some "ESCAPE",
     odds := some 2, popularity := some 1 },
   { horseId := 2, horseName := some "B", horseNumber := some 2,
     postPosition := some 2, runningStyle := some "STALKER",
     odds := some 8, popularity := some 4 },
   { horseId := 3, horseName := some "C", horseNumber := some 3,
     postPosition := some 3, runningStyle := some "STALKER",
     odds := some 8, popularity := some 4 }]

/-- Race for the C7 witness. -/
def raceC7 : Race :=
  { venue := some "中山", trackCondition := some "良",
    courseType := some "芝", distance := 2000, grade := some "G1" }

/-- Pace prediction for the C7 witness. -/
def paceC7 : PacePrediction :=
  { type := "middle", confidence := 0.7,
    advantageousStyles := ["STALKER", "FRONT"], escapeCount := 1,
    frontCount := 0 }

/-- The odds of the C7 witness entries are at least 1. -/
theorem entriesC7_odds_ge_one :
    ∀ e ∈ entriesC7, ∀ q, e.odds = some q → 1 ≤ q := by
  intro e he q hq
  simp only [entriesC7, List.mem_cons, List.not_mem_nil, or_false] at he
  rcases he with rfl | rfl | rfl <;>
    · rw [← Option.some_inj.mp hq]
      norm_num

/-- Witness for C7 at a concrete 3-horse field: all three hypotheses hold and
the invariants follow. -/
theorem c7_ranking_invariants_witness :
    (∀ e ∈ entriesC7, e.horseName.isSome = true) ∧
    (∀ pq ∈ ([] : List (ℕ × ℚ)), 0 ≤ pq.2 ∧ pq.2 ≤ 1) ∧
    (∀ e ∈ entriesC7, ∀ q, e.odds = some q → 1 ≤ q) ∧
    ((generateRankings entriesC7 (some "G1") paceC7 raceC7 []).length =
        entriesC7.length ∧
      (generateRankings entriesC7 (some "G1") paceC7 raceC7 []).map
          (fun r => r.rank) = List.range' 1 entriesC7.length ∧
      ((generateRankings entriesC7 (some "G1") paceC7 raceC7 []).map
          (fun r => r.horseId)).Perm (entriesC7.map (fun e => e.horseId)) ∧
      (∀ r ∈ generateRankings entriesC7 (some "G1") paceC7 raceC7 [],
          0 ≤ r.score ∧ r.score ≤ 1) ∧
      (generateRankings entriesC7 (some "G1") paceC7 raceC7 []).Pairwise
        (fun a b => b.score ≤ a.score) ∧
      ∀ q : ℚ,
        ((generateRankings entriesC7 (some "G1") paceC7 raceC7 []).filter
              (fun r => decide (r.score = q))).map
            (fun r => { r with rank := 1 }) =
          (entriesC7.filterMap
              (mkRow (decide (0 < ([] : List (ℕ × ℚ)).length)) []
                (some "G1") paceC7 raceC7)).filter
            (fun r => decide (r.score = q))) :=
  ⟨by decide, by decide, entriesC7_odds_ge_one,
    c7_ranking_invariants entriesC7 (some "G1") paceC7 raceC7 []
      (by decide) (by decide) entriesC7_odds_ge_one⟩

end Boonta

